import Mathlib

/-!
# Field mapping of decoded Kafka messages (kafka_utils.go)

A shallow embedding of `kafkaMessageDecoder.unmarshalKafkaMessageMap`: the
reflection loop that copies the entries of a decoded Kafka Connect message
(`map[string]interface{}`) into the fields of a struct, by `kafka` struct tag.

Conventions of the embedding

* A struct is the list of its fields in declaration order. A field is what
  reflection exposes of it: the result of `Tag.Get("kafka")`, `CanSet()`,
  `Type().String()` and the stored value.
* The switch of the decoder is on the type string. The string of a supported
  type denotes that type: the predeclared types, and `time.Time` of the
  standard library.
* A Go map is an association list read with `List.lookup`. For a nested map the
  order of the list is the order in which `MapKeys()` lists the keys in one
  call. Go leaves that order unspecified and it can differ from one call to the
  next, so a statement about two calls on one message gives each call a listing
  of its own; `SameMessage` relates the listings of one message.
* Machine integers are mathematical integers; every Go conversion is an
  explicit reduction modulo a power of two. `int` and `uint` are 64 bits wide.
* Floating point values are carried as IEEE-754 bit patterns. What the Go
  runtime computes on them, and `time.Parse`, are supplied by a `GoRuntime`.
* A run-time panic ends the loop: the fields written so far stay written and
  no error list is returned.
* Calls to `Logger.Error` have no effect on the target or on the returned list
  and are left out.
-/

namespace KafkaUtils

/-! ## Values -/

/-- Value of Go type `float32`, as its IEEE-754 binary32 bit pattern. -/
structure GoFloat32 where
  bits : Nat
deriving DecidableEq, Repr

/-- Value of Go type `float64`, as its IEEE-754 binary64 bit pattern. -/
structure GoFloat64 where
  bits : Nat
deriving DecidableEq, Repr

/-- Value of Go type `time.Time`: the instant in nanoseconds since the Unix
epoch, and the zone offset in seconds east of UTC (`none` for `time.Local`). -/
structure GoTime where
  unixNano : Int
  zoneOffset : Option Int
deriving DecidableEq, Repr

/-- Dynamic value held in a `map[string]interface{}` of a decoded message. -/
inductive KafkaValue where
  | null
  | int32 (i : Int)
  | int64 (i : Int)
  | float32 (x : GoFloat32)
  | float64 (x : GoFloat64)
  | bool (b : Bool)
  | string (s : String)
  | map (entries : List (String × KafkaValue))
  | other (dynamicType : String)

/-- Decoded message, `map[string]interface{}`. -/
abbrev KafkaMessageMap := List (String × KafkaValue)

/-- Value stored in a struct field. -/
inductive FieldVal where
  | bool (b : Bool)
  | int (i : Int)
  | uint (n : Nat)
  | float32 (x : GoFloat32)
  | float64 (x : GoFloat64)
  | string (s : String)
  | time (t : GoTime)
  | other (repr : String)
deriving DecidableEq, Repr

/-- Struct field as seen through reflection. `tag` is the result of
`Tag.Get("kafka")`, which is the empty string when the field carries no
`kafka` annotation. -/
structure StructField where
  tag : String
  canSet : Bool
  typeStr : String
  val : FieldVal
deriving DecidableEq, Repr

/-- The part of the Go runtime and standard library the decoder relies on. -/
structure GoRuntime where
  /-- Comparison `b > 0` on a `float64`. -/
  float64Pos : GoFloat64 → Bool
  /-- Conversion `int64(x)` of a `float64`. -/
  float64ToInt64 : GoFloat64 → Int
  /-- Conversion `uint64(x)` of a `float64`. -/
  float64ToUint64 : GoFloat64 → Nat
  /-- Conversion `float64(x)` of a `float32`. -/
  float32ToFloat64 : GoFloat32 → GoFloat64
  /-- Conversion `float32(x)` of a `float64`, as done by `SetFloat` on a
  `float32` field. -/
  float64ToFloat32 : GoFloat64 → GoFloat32
  /-- Call `time.Parse(time.RFC3339, s)`: the parsed time, or the text of the
  parse error. -/
  timeParseRFC3339 : String → Except String GoTime

/-! ## Integer conversions -/

/-- Conversion of an integer to the signed type of width `w`. -/
def wrapInt (w : Nat) (x : Int) : Int :=
  let r := x % 2 ^ w
  if r < 2 ^ (w - 1) then r else r - 2 ^ w

/-- Conversion of an integer to the unsigned type of width `w`. -/
def wrapUint (w : Nat) (x : Int) : Nat :=
  (x % 2 ^ w).toNat

/-- Width in bits of the integer type with the given name. -/
def intBits (typeStr : String) : Nat :=
  if typeStr = "int8" ∨ typeStr = "uint8" then 8
  else if typeStr = "int16" ∨ typeStr = "uint16" then 16
  else if typeStr = "int32" ∨ typeStr = "uint32" then 32
  else 64

/-! ## Reflection setters -/

/-- Method `reflect.Value.SetBool`. -/
def StructField.setBool (f : StructField) (b : Bool) : StructField :=
  { f with val := .bool b }

/-- Method `reflect.Value.SetInt`: stores `x` converted to the kind of the field. -/
def StructField.setInt (f : StructField) (x : Int) : StructField :=
  { f with val := .int (wrapInt (intBits f.typeStr) x) }

/-- Method `reflect.Value.SetUint`: stores `x` converted to the kind of the field. -/
def StructField.setUint (f : StructField) (x : Nat) : StructField :=
  { f with val := .uint (wrapUint (intBits f.typeStr) x) }

/-- Method `reflect.Value.SetFloat`: stores `x`, converted to `float32` for a
`float32` field. -/
def StructField.setFloat (rt : GoRuntime) (f : StructField) (x : GoFloat64) : StructField :=
  if f.typeStr = "float32" then { f with val := .float32 (rt.float64ToFloat32 x) }
  else { f with val := .float64 x }

/-- Method `reflect.Value.SetString`. -/
def StructField.setString (f : StructField) (s : String) : StructField :=
  { f with val := .string s }

/-- Method `reflect.Value.Set` with a `time.Time`. -/
def StructField.setTime (f : StructField) (t : GoTime) : StructField :=
  { f with val := .time t }

/-- Method `reflect.Value.IsValid`: a value obtained from `Field(i)` of a struct
is never the zero `Value`. -/
def StructField.isValid (_f : StructField) : Bool := true

/-- Function `time.Unix(sec, nsec)`: a local time. -/
def timeUnix (sec nsec : Int) : GoTime :=
  { unixNano := sec * 1000000000 + nsec, zoneOffset := none }

/-! ## The decoder -/

/-- Outcome of the body of the loop for one field. -/
inductive FieldOutcome where
  /-- The iteration ended; `err` is the error appended to `errs`, if any. -/
  | done (field : StructField) (err : Option String)
  /-- The iteration hit a run-time panic. -/
  | panicked

/-- Lines 54 to 56: a nested `map[string]interface{}` is replaced by the value
under the first key listed by `MapKeys()`. Indexing the key list of a map
without entries is out of range and panics, which is `none`. A key has its
value in the map; the zero value `nil` stands where a lookup finds nothing.
The entries are in the order `MapKeys()` lists them in this call; another call
on the same map may be handed them in another order. -/
def unwrapNullable : KafkaValue → Option KafkaValue
  | .map v =>
    match v.map Prod.fst with
    | [] => none
    | k :: _ => some ((v.lookup k).getD .null)
  | kafkaValue => some kafkaValue

/-- Lines 61 to 145: the settability test and the switch on the type string of
the field, for a value that is not `nil`. Returns the field and `err`. -/
def setField (rt : GoRuntime) (tag : String) (field : StructField)
    (kafkaValue : KafkaValue) : StructField × Option String :=
  if field.canSet && field.isValid then
    let fieldType := field.typeStr
    if fieldType = "bool" then
      match kafkaValue with
      | .int32 b => (field.setBool (decide (b > 0)), none)
      | .int64 b => (field.setBool (decide (b > 0)), none)
      | .float64 b => (field.setBool (rt.float64Pos b), none)
      | .bool b => (field.setBool b, none)
      | _ => (field, some
          ("error unmarshaling Kafka message, couldn't set bool field with tag " ++ tag))
    else if fieldType ∈ ["int", "int8", "int16", "int32", "int64"] then
      match kafkaValue with
      | .int32 i => (field.setInt i, none)
      | .int64 i => (field.setInt i, none)
      | .float64 i => (field.setInt (rt.float64ToInt64 i), none)
      | _ => (field, some
          ("error unmarshaling Kafka message, couldn't set int field with tag " ++ tag))
    else if fieldType ∈ ["uint", "uint8", "uint16", "uint32", "uint64"] then
      match kafkaValue with
      | .int32 i => (field.setUint (wrapUint 64 i), none)
      | .int64 i => (field.setUint (wrapUint 64 i), none)
      | .float64 i => (field.setUint (rt.float64ToUint64 i), none)
      | _ => (field, some
          ("error unmarshaling Kafka message, couldn't set uint field with tag " ++ tag))
    else if fieldType ∈ ["float32", "float64"] then
      match kafkaValue with
      | .float32 i => (field.setFloat rt (rt.float32ToFloat64 i), none)
      | .float64 i => (field.setFloat rt i, none)
      | _ => (field, some
          ("error unmarshaling Kafka message, couldn't set float field with tag " ++ tag))
    else if fieldType = "string" then
      match kafkaValue with
      | .string s => (field.setString s, none)
      | _ => (field, some
          ("error unmarshaling Kafka message, couldn't set string field with tag " ++ tag))
    else if fieldType = "time.Time" then
      match kafkaValue with
      | .int64 t => (field.setTime (timeUnix 0 (wrapInt 64 (t * 1000000))), none)
      | .float64 t =>
        (field.setTime (timeUnix 0 (wrapInt 64 (rt.float64ToInt64 t * 1000000))), none)
      | .string t =>
        match rt.timeParseRFC3339 t with
        | .ok timeVal => (field.setTime timeVal, none)
        | .error parseErr => (field, some
            ("error unmarshaling Kafka message, failed to parse time field with tag "
              ++ tag ++ ", reason: " ++ parseErr))
      | _ => (field, some
          ("error unmarshaling Kafka message, couldn't set time field with tag " ++ tag))
    else
      (field, some
        ("unhandled Avro type " ++ field.typeStr ++ ", field with tag " ++ tag
          ++ " will not be set"))
  else
    (field, some ("cannot set invalid field with tag " ++ tag))

/-- Lines 42 to 148: the body of the loop for one field. -/
def fieldStep (rt : GoRuntime) (kafkaMessageMap : KafkaMessageMap)
    (field : StructField) : FieldOutcome :=
  let tag := field.tag
  match kafkaMessageMap.lookup tag with
  | none => .done field none
  | some kafkaValue =>
    match unwrapNullable kafkaValue with
    | none => .panicked
    | some .null => .done field none
    | some kafkaValue =>
      let r := setField rt tag field kafkaValue
      .done r.1 r.2

/-- Lines 146 to 148: `err` is appended to `errs` when it is not `nil`. -/
def appendErr (errs : List String) : Option String → List String
  | none => errs
  | some err => errs ++ [err]

/-- What a call leaves behind: the fields of the target, and the returned
error list, `none` when the call panicked instead of returning. -/
structure UnmarshalResult where
  fields : List StructField
  errs : Option (List String)
deriving DecidableEq, Repr

/-- Lines 41 to 150: the loop over the fields, from the fields still to visit
and the errors collected so far. -/
def unmarshalLoop (rt : GoRuntime) (kafkaMessageMap : KafkaMessageMap) :
    List StructField → List String → UnmarshalResult
  | [], errs => { fields := [], errs := some errs }
  | field :: rest, errs =>
    match fieldStep rt kafkaMessageMap field with
    | .panicked => { fields := field :: rest, errs := none }
    | .done field' err =>
      let r := unmarshalLoop rt kafkaMessageMap rest (appendErr errs err)
      { fields := field' :: r.fields, errs := r.errs }

/-- Method `kafkaMessageDecoder.unmarshalKafkaMessageMap`, on a target that
points to the struct with the given fields. -/
def unmarshalKafkaMessageMap (rt : GoRuntime) (kafkaMessageMap : KafkaMessageMap)
    (target : List StructField) : UnmarshalResult :=
  unmarshalLoop rt kafkaMessageMap target []

/-! ## An example runtime

The theorems below hold for every `GoRuntime`. To evaluate the decoder on
concrete messages one runtime is fixed here: IEEE-754 arithmetic on the bit
patterns, and a reader for RFC3339 times without fractional seconds. Where the
Go specification leaves the result of a conversion to the implementation (a
float that does not fit the integer type), this runtime yields `-2^63`, and
`2^63` for `uint64`. -/

/-- Sign bit of a binary64 pattern. -/
def f64Sign (b : Nat) : Nat := b / 2 ^ 63 % 2

/-- Biased exponent of a binary64 pattern. -/
def f64Exp (b : Nat) : Nat := b / 2 ^ 52 % 2 ^ 11

/-- Fraction bits of a binary64 pattern. -/
def f64Frac (b : Nat) : Nat := b % 2 ^ 52

/-- Significand of a binary64 pattern, with the implicit bit of a normal number. -/
def f64Mant (b : Nat) : Nat :=
  if f64Exp b = 0 then f64Frac b else 2 ^ 52 + f64Frac b

/-- Magnitude of a finite binary64 value, truncated toward zero. The value is
`f64Mant b * 2 ^ (max (f64Exp b) 1 - 1075)`. -/
def f64TruncMag (b : Nat) : Nat :=
  let e := max (f64Exp b) 1
  if 1075 ≤ e then f64Mant b * 2 ^ (e - 1075) else f64Mant b / 2 ^ (1075 - e)

/-- Comparison `x > 0`: false for zeros, negative values and NaN. -/
def exFloat64Pos (x : GoFloat64) : Bool :=
  f64Sign x.bits = 0 && !(f64Exp x.bits = 0 && f64Frac x.bits = 0)
    && !(f64Exp x.bits = 2047 && f64Frac x.bits ≠ 0)

/-- Conversion `int64(x)`: truncation toward zero. -/
def exFloat64ToInt64 (x : GoFloat64) : Int :=
  if f64Exp x.bits = 2047 then -(2 ^ 63)
  else
    let v : Int := if f64Sign x.bits = 1 then -(f64TruncMag x.bits : Int) else f64TruncMag x.bits
    if -(2 ^ 63) ≤ v ∧ v < 2 ^ 63 then v else -(2 ^ 63)

/-- Conversion `uint64(x)`: truncation toward zero. -/
def exFloat64ToUint64 (x : GoFloat64) : Nat :=
  if f64Exp x.bits = 2047 then 2 ^ 63
  else if f64TruncMag x.bits = 0 then 0
  else if f64Sign x.bits = 0 ∧ f64TruncMag x.bits < 2 ^ 64 then f64TruncMag x.bits
  else 2 ^ 63

/-- Conversion `float64(x)` of a binary32 pattern, which is exact. -/
def exFloat32ToFloat64 (x : GoFloat32) : GoFloat64 :=
  let sign := x.bits / 2 ^ 31 % 2
  let e := x.bits / 2 ^ 23 % 2 ^ 8
  let frac := x.bits % 2 ^ 23
  let body :=
    if e = 255 then 2047 * 2 ^ 52 + frac * 2 ^ 29
    else if e = 0 then
      if frac = 0 then 0
      else
        let p := Nat.log2 frac
        (p + 874) * 2 ^ 52 + (frac - 2 ^ p) * 2 ^ (52 - p)
    else (e + 896) * 2 ^ 52 + frac * 2 ^ 29
  { bits := sign * 2 ^ 63 + body }

/-- Quotient of `m` by `2 ^ shift`, rounded to nearest, ties to even. -/
def roundShift (m shift : Nat) : Nat :=
  let q := m / 2 ^ shift
  let r := m % 2 ^ shift
  if shift = 0 then m
  else if r > 2 ^ (shift - 1) ∨ (r = 2 ^ (shift - 1) ∧ q % 2 = 1) then q + 1 else q

/-- Conversion `float32(x)` of a binary64 pattern: round to nearest, ties to even. -/
def exFloat64ToFloat32 (x : GoFloat64) : GoFloat32 :=
  let sign := f64Sign x.bits
  let e := max (f64Exp x.bits) 1
  let body :=
    if f64Exp x.bits = 2047 then
      if f64Frac x.bits = 0 then 255 * 2 ^ 23
      else 255 * 2 ^ 23 + 2 ^ 22 + f64Frac x.bits / 2 ^ 29 % 2 ^ 22
    else if 897 ≤ e then
      min ((e - 897) * 2 ^ 23 + roundShift (f64Mant x.bits) 29) (255 * 2 ^ 23)
    else roundShift (f64Mant x.bits) (926 - e)
  { bits := sign * 2 ^ 31 + body }

/-- Value of two decimal digits. -/
def twoDigits (a b : Char) : Option Nat :=
  if a.isDigit ∧ b.isDigit then some ((a.toNat - 48) * 10 + (b.toNat - 48)) else none

/-- Number of days in a month of the proleptic Gregorian calendar. -/
def daysIn (year month : Nat) : Nat :=
  if month = 2 then
    if year % 4 = 0 ∧ (year % 100 ≠ 0 ∨ year % 400 = 0) then 29 else 28
  else if month = 4 ∨ month = 6 ∨ month = 9 ∨ month = 11 then 30
  else 31

/-- Days from 1970-01-01 to the given civil date. -/
def daysFromCivil (year month day : Nat) : Int :=
  let y : Int := if month ≤ 2 then (year : Int) - 1 else year
  let era : Int := y / 400
  let yoe : Int := y - era * 400
  let mp : Int := if month ≤ 2 then (month : Int) + 9 else (month : Int) - 3
  let doy : Int := (153 * mp + 2) / 5 + day - 1
  let doe : Int := yoe * 365 + yoe / 4 - yoe / 100 + doy
  era * 146097 + doe - 719468

/-- Instant of a civil date and time of day at a zone offset, when in range. -/
def civilTime (year month day hour minute second : Nat) (offset : Int) : Option GoTime :=
  if 1 ≤ month ∧ month ≤ 12 ∧ 1 ≤ day ∧ day ≤ daysIn year month
      ∧ hour < 24 ∧ minute < 60 ∧ second < 60 then
    some
      { unixNano :=
          (daysFromCivil year month day * 86400 + hour * 3600 + minute * 60 + second - offset)
            * 1000000000
        zoneOffset := some offset }
  else none

/-- Reader for `YYYY-MM-DDThh:mm:ss` followed by `Z` or by an offset `+hh:mm`
or `-hh:mm`. -/
def readRFC3339 : List Char → Option GoTime
  | y1 :: y2 :: y3 :: y4 :: '-' :: m1 :: m2 :: '-' :: d1 :: d2 :: 'T' :: h1 :: h2 :: ':'
      :: n1 :: n2 :: ':' :: s1 :: s2 :: zone => do
    let century ← twoDigits y1 y2
    let yy ← twoDigits y3 y4
    let month ← twoDigits m1 m2
    let day ← twoDigits d1 d2
    let hour ← twoDigits h1 h2
    let minute ← twoDigits n1 n2
    let second ← twoDigits s1 s2
    let offset : Int ←
      match zone with
      | ['Z'] => some 0
      | [sign, o1, o2, ':', o3, o4] => do
        let oh ← twoDigits o1 o2
        let om ← twoDigits o3 o4
        if oh < 24 ∧ om < 60 then
          if sign = '+' then some ((oh * 3600 + om * 60 : Nat) : Int)
          else if sign = '-' then some (-((oh * 3600 + om * 60 : Nat) : Int))
          else none
        else none
      | _ => none
    civilTime (century * 100 + yy) month day hour minute second offset
  | _ => none

/-- Call `time.Parse(time.RFC3339, s)` of the example runtime. -/
def exTimeParseRFC3339 (s : String) : Except String GoTime :=
  match readRFC3339 s.toList with
  | some t => .ok t
  | none => .error ("parsing time " ++ s ++ ": not in RFC3339 form")

/-- The example runtime. -/
def exampleRuntime : GoRuntime where
  float64Pos := exFloat64Pos
  float64ToInt64 := exFloat64ToInt64
  float64ToUint64 := exFloat64ToUint64
  float32ToFloat64 := exFloat32ToFloat64
  float64ToFloat32 := exFloat64ToFloat32
  timeParseRFC3339 := exTimeParseRFC3339

/-- Whether a value of a message is itself a nested `map[string]interface{}`.
Strings, booleans, numbers and `nil` are not. -/
def KafkaValue.isNestedMap : KafkaValue → Bool
  | .map _ => true
  | _ => false

/-! ## The coercion table of the specification

Section 4.6 of the specification describes the mapper by target kind. The
definitions of this section follow that text; the theorems compare them with
`setField`, which follows the source. -/

/-- Kinds of target field the specification supports. -/
inductive TargetKind where
  | boolean
  | signed (bits : Nat)
  | unsigned (bits : Nat)
  | float32
  | float64
  | string
  | timestamp
deriving DecidableEq, Repr

/-- Kind of a supported field type: bool; int, int8, int16, int32, int64; uint,
uint8, uint16, uint32, uint64; float32, float64; string; time.Time. -/
def targetKind (typeStr : String) : Option TargetKind :=
  if typeStr = "bool" then some .boolean
  else if typeStr = "int" then some (.signed 64)
  else if typeStr = "int8" then some (.signed 8)
  else if typeStr = "int16" then some (.signed 16)
  else if typeStr = "int32" then some (.signed 32)
  else if typeStr = "int64" then some (.signed 64)
  else if typeStr = "uint" then some (.unsigned 64)
  else if typeStr = "uint8" then some (.unsigned 8)
  else if typeStr = "uint16" then some (.unsigned 16)
  else if typeStr = "uint32" then some (.unsigned 32)
  else if typeStr = "uint64" then some (.unsigned 64)
  else if typeStr = "float32" then some .float32
  else if typeStr = "float64" then some .float64
  else if typeStr = "string" then some .string
  else if typeStr = "time.Time" then some .timestamp
  else none

/-- Source representations a kind accepts. boolean: int32, int64, float64,
bool. Signed and unsigned integers: int32, int64, float64. Floating point:
float32, float64. string: string. timestamp: int64, float64, string. -/
def TargetKind.acceptsRepr : TargetKind → KafkaValue → Bool
  | .boolean, .int32 _ => true
  | .boolean, .int64 _ => true
  | .boolean, .float64 _ => true
  | .boolean, .bool _ => true
  | .signed _, .int32 _ => true
  | .signed _, .int64 _ => true
  | .signed _, .float64 _ => true
  | .unsigned _, .int32 _ => true
  | .unsigned _, .int64 _ => true
  | .unsigned _, .float64 _ => true
  | .float32, .float32 _ => true
  | .float32, .float64 _ => true
  | .float64, .float32 _ => true
  | .float64, .float64 _ => true
  | .string, .string _ => true
  | .timestamp, .int64 _ => true
  | .timestamp, .float64 _ => true
  | .timestamp, .string _ => true
  | _, _ => false

/-- A kind accepts a value when it accepts its representation and, for a
timestamp given as a string, the string is valid RFC3339. -/
def TargetKind.accepts (rt : GoRuntime) (k : TargetKind) (u : KafkaValue) : Bool :=
  k.acceptsRepr u &&
    match k, u with
    | .timestamp, .string s => (rt.timeParseRFC3339 s).toBool
    | _, _ => true

/-- The coerced source value: what a field of the kind holds after it is
populated from the value. Numbers are converted as Go converts them: an integer
field holds the source reduced to its width, a `float32` field the source
rounded to `float32`, and epoch milliseconds are scaled to nanoseconds in
`int64` arithmetic. No value is given where the kind does not accept the
source. -/
def TargetKind.coerce (rt : GoRuntime) : TargetKind → KafkaValue → Option FieldVal
  | .boolean, .int32 i => some (.bool (decide (i > 0)))
  | .boolean, .int64 i => some (.bool (decide (i > 0)))
  | .boolean, .float64 x => some (.bool (rt.float64Pos x))
  | .boolean, .bool b => some (.bool b)
  | .signed w, .int32 i => some (.int (wrapInt w i))
  | .signed w, .int64 i => some (.int (wrapInt w i))
  | .signed w, .float64 x => some (.int (wrapInt w (rt.float64ToInt64 x)))
  | .unsigned w, .int32 i => some (.uint (wrapUint w i))
  | .unsigned w, .int64 i => some (.uint (wrapUint w i))
  | .unsigned w, .float64 x => some (.uint (wrapUint w (rt.float64ToUint64 x)))
  | .float32, .float32 x => some (.float32 (rt.float64ToFloat32 (rt.float32ToFloat64 x)))
  | .float32, .float64 x => some (.float32 (rt.float64ToFloat32 x))
  | .float64, .float32 x => some (.float64 (rt.float32ToFloat64 x))
  | .float64, .float64 x => some (.float64 x)
  | .string, .string s => some (.string s)
  | .timestamp, .int64 ms =>
    some (.time { unixNano := wrapInt 64 (ms * 1000000), zoneOffset := none })
  | .timestamp, .float64 x =>
    some (.time { unixNano := wrapInt 64 (rt.float64ToInt64 x * 1000000), zoneOffset := none })
  | .timestamp, .string s =>
    match rt.timeParseRFC3339 s with
    | .ok t => some (.time t)
    | .error _ => none
  | _, _ => none

/-- Word for the kind in the error recorded when a value is not accepted. -/
def TargetKind.word : TargetKind → String
  | .boolean => "bool"
  | .signed _ => "int"
  | .unsigned _ => "uint"
  | .float32 => "float"
  | .float64 => "float"
  | .string => "string"
  | .timestamp => "time"

/-- Error the iteration of a field records, if any. -/
def fieldErr (rt : GoRuntime) (m : KafkaMessageMap) (f : StructField) : Option String :=
  match fieldStep rt m f with
  | .done _ err => err
  | .panicked => none

/-- Field as the iteration for it leaves it. -/
def fieldAfter (rt : GoRuntime) (m : KafkaMessageMap) (f : StructField) : StructField :=
  match fieldStep rt m f with
  | .done g _ => g
  | .panicked => f

/-- Whether the iteration of a field runs into a panic. -/
def fieldPanics (rt : GoRuntime) (m : KafkaMessageMap) (f : StructField) : Bool :=
  match fieldStep rt m f with
  | .done _ _ => false
  | .panicked => true

/-- A field fails when its key is present with a value that, unwrapped, is not
null, and the field is unsettable, of an unsupported type, or given a value its
type does not accept. -/
def fieldFails (rt : GoRuntime) (m : KafkaMessageMap) (f : StructField) : Bool :=
  match m.lookup f.tag with
  | none => false
  | some v =>
    match unwrapNullable v with
    | none => false
    | some .null => false
    | some u =>
      !f.canSet ||
        match targetKind f.typeStr with
        | none => true
        | some k => !k.accepts rt u

/-- Type strings of the supported field types. -/
def supportedTypes : List String :=
  ["bool", "int", "int8", "int16", "int32", "int64", "uint", "uint8", "uint16", "uint32",
    "uint64", "float32", "float64", "string", "time.Time"]

/-! ## Listings of one message

`MapKeys()` returns the keys of a map in an unspecified order, which the Go
runtime varies from call to call. Two calls of the decoder on the same message
therefore see the entries of a nested map in possibly different orders. -/

mutual
/-- Two values that list the same Go value: they are equal, or both are nested
maps with the same keys, bound to values that list the same Go value, the
entries being listed in any order. -/
inductive Relisted : KafkaValue → KafkaValue → Prop
  | same (v : KafkaValue) : Relisted v v
  | map (e1 e3 e2 : List (String × KafkaValue)) (hperm : e1.Perm e3)
      (hent : RelistedEntries e3 e2) : Relisted (.map e1) (.map e2)
/-- Entry lists with the same keys in the same order, bound to values that list
the same Go value. -/
inductive RelistedEntries :
    List (String × KafkaValue) → List (String × KafkaValue) → Prop
  | nil : RelistedEntries [] []
  | cons (k : String) (v1 v2 : KafkaValue) (r1 r2 : List (String × KafkaValue))
      (hv : Relisted v1 v2) (hr : RelistedEntries r1 r2) :
      RelistedEntries ((k, v1) :: r1) ((k, v2) :: r2)
end

/-- Two listings of one message: every key is absent from both, or bound in
both to values that list the same Go value. -/
def SameMessage (m1 m2 : KafkaMessageMap) : Prop :=
  ∀ key : String,
    match m1.lookup key, m2.lookup key with
    | none, none => True
    | some v1, some v2 => Relisted v1 v2
    | _, _ => False

/-! ## Sample data -/

/-- Settable field `A int` with tag `a`, holding 7. -/
def sampleA : StructField := { tag := "a", canSet := true, typeStr := "int", val := .int 7 }

/-- Settable field `B int` with tag `b`, holding 0. -/
def sampleB : StructField := { tag := "b", canSet := true, typeStr := "int", val := .int 0 }

/-- Unexported field `c int` with tag `c`, holding 0. -/
def sampleC : StructField := { tag := "c", canSet := false, typeStr := "int", val := .int 0 }

/-- Settable field `D []byte` with tag `d`, holding the nil slice. -/
def sampleD : StructField :=
  { tag := "d", canSet := true, typeStr := "[]uint8", val := .other "[]uint8(nil)" }

/-- Settable field `O float64` with tag `o`, holding 0. -/
def sampleO : StructField :=
  { tag := "o", canSet := true, typeStr := "float64", val := .float64 { bits := 0 } }

/-- Settable field `E int8` with tag `e`, holding 0. -/
def sampleE : StructField := { tag := "e", canSet := true, typeStr := "int8", val := .int 0 }

/-- Unexported field `x int` without `kafka` annotation, holding 0. -/
def sampleX : StructField := { tag := "", canSet := false, typeStr := "int", val := .int 0 }

/-- Settable field `G uint8` with tag `g`, holding 0. -/
def sampleG : StructField := { tag := "g", canSet := true, typeStr := "uint8", val := .uint 0 }

/-- Settable field `K bool` with tag `k`, holding true. -/
def sampleK : StructField := { tag := "k", canSet := true, typeStr := "bool", val := .bool true }

/-- Settable field `M time.Time` with tag `m`, holding the Unix epoch. -/
def sampleM : StructField :=
  { tag := "m", canSet := true, typeStr := "time.Time"
    val := .time { unixNano := 0, zoneOffset := some 0 } }

/-- Settable field `Y int` without `kafka` annotation, holding 0. -/
def sampleY : StructField := { tag := "", canSet := true, typeStr := "int", val := .int 0 }

/-- Type string of a user-defined named type: the package name, a dot, and the
name of the type, as `Type().String()` prints it. -/
def namedTypeString (pkg name : String) : String := pkg ++ "." ++ name

/-- Settable field `Id ID` with tag `id`, for `type ID int64` of package `core`,
holding 0. -/
def sampleId : StructField :=
  { tag := "id", canSet := true, typeStr := namedTypeString "core" "ID", val := .int 0 }

/-- Settable field `E64 int64` with tag `id`, holding 0. -/
def sampleE64 : StructField := { tag := "id", canSet := true, typeStr := "int64", val := .int 0 }

/-- Message `{"a": {"int": 1, "long": 2}}`, the key `int` of the nested map
listed first. -/
def sampleUnionIntFirst : KafkaMessageMap :=
  [("a", .map [("int", .int32 1), ("long", .int64 2)])]

/-- The message of `sampleUnionIntFirst`, the key `long` of the nested map
listed first. -/
def sampleUnionLongFirst : KafkaMessageMap :=
  [("a", .map [("long", .int64 2), ("int", .int32 1)])]

end KafkaUtils

/-! # Environment and command line helpers (utils.go, cli.go)

The process environment is the list of the variables that are set, read with
`List.lookup`. A flag set is the list of its flags in the order `VisitAll`
visits them; the function passed to `VisitAll` receives a pointer to the live
flag, so it reads the flag as the calls before it left it. Every flag owns its
value, and names are not normalized. Viper and the parsers of the flag values
are supplied by a `CliEnv`. -/

namespace Tools

/-- Process environment: the variables that are set and their values, the
variable set last coming first. -/
abbrev Environ := List (String × String)

/-- Function `os.Getenv`: the value of the variable, which is empty when the
variable is not present. -/
def osGetenv (env : Environ) (key : String) : String :=
  (env.lookup key).getD ""

/-- Function `os.Setenv`. -/
def osSetenv (env : Environ) (key value : String) : Environ :=
  (key, value) :: env

/-- Function `GetEnvVal` of utils.go. -/
def GetEnvVal (env : Environ) (key defaultVal : String) : String :=
  let val := osGetenv env key
  if val ≠ "" then val else defaultVal

/-- Flag of a `pflag.FlagSet`: its name, its `Changed` mark and the text of its
value. -/
structure Flag where
  name : String
  changed : Bool
  value : String
deriving DecidableEq, Repr

/-- What the hook uses from outside the flag set: viper, as `SetEnvPrefix` and
`AutomaticEnv` configured it over the environment, and the parser of each flag
value. -/
structure CliEnv where
  /-- Function `viper.IsSet`. -/
  viperIsSet : String → Bool
  /-- Function `viper.GetString`. -/
  viperGetString : String → String
  /-- Method `Value.Set` of the value of the flag: the text of the new value,
  or `none` when the given text is rejected. -/
  valueSet : Flag → String → Option String

/-- Call `strings.Replace(name, "-", "_", -1)`. -/
def underscored (name : String) : String :=
  ⟨name.data.map (fun c => if c = '-' then '_' else c)⟩

/-- Method `FlagSet.Set(name, value)` of pflag: the flag with that name takes
the value and is marked changed. Nothing changes when no flag has the name or
the value is rejected; the hook drops the returned error. -/
def flagSetSet (env : CliEnv) : List Flag → String → String → List Flag
  | [], _, _ => []
  | f :: rest, name, value =>
    if f.name = name then
      match env.valueSet f value with
      | some v => { f with value := v, changed := true } :: rest
      | none => f :: rest
    else f :: flagSetSet env rest name value

/-- Lines 47 to 55 of cli.go: the function passed to `VisitAll`, applied to the
flag with the given name. -/
def bindFlag (env : CliEnv) (flags : List Flag) (name : String) : List Flag :=
  match flags.find? (fun f => f.name = name) with
  | none => flags
  | some f =>
    if !f.changed then
      let underscoredName := underscored f.name
      if env.viperIsSet underscoredName then
        let strV := env.viperGetString underscoredName
        flagSetSet env flags f.name strV
      else flags
    else flags

/-- Lines 45 to 56 of cli.go: the hook returned by
`CobraBindEnvironmentVariables`, on the flags of the command. -/
def CobraBindEnvironmentVariables (env : CliEnv) (flags : List Flag) : List Flag :=
  (flags.map Flag.name).foldl (bindFlag env) flags

/-- Environment of the example: viper finds `KAFKA_BROKER` and `PORT`, and the
flag `port` only takes decimal digits. -/
def sampleCliEnv : CliEnv where
  viperIsSet := fun key => key = "kafka_broker" ∨ key = "port"
  viperGetString := fun key =>
    if key = "kafka_broker" then "broker:9092" else if key = "port" then "http" else ""
  valueSet := fun f text =>
    if f.name = "port" then (if text.data.all Char.isDigit then some text else none)
    else some text

/-- Flags of the example: `address` given on the command line, the others not. -/
def sampleFlags : List Flag :=
  [{ name := "address", changed := true, value := "0.0.0.0" },
    { name := "kafka-broker", changed := false, value := "kafka:29092" },
    { name := "port", changed := false, value := "8080" }]

end Tools

/-! # The Avro decoder (schema_registry.go)

The file schema_registry.go is not among the sources; only its tests are. The
definitions of this section follow sections 4.4, 6 and 7 of the specification.
A payload is the list of its bytes, the schema cache an association list from
schema ID to definition. -/

namespace SchemaRegistry

/-- Modelled from the spec: the error kinds of the decode path (section 7), in
place of the errors of schema_registry.go, which is not among the sources. -/
inductive DecodeError where
  | payloadDecode (reason : String)
  | schemaFetch (reason : String)
  | fieldMapping (message : String)
deriving DecidableEq, Repr

/-- Modelled from the spec: the collaborators of the Avro decoder of
schema_registry.go, which is not among the sources. `getSchema` is the
RegistryClient, `decodeBinary` decodes payload bytes with a schema definition,
`populate` is the FieldMapper and returns its errors. -/
structure Collaborators where
  getSchema : Nat → Except String String
  decodeBinary : String → List Nat → Except String KafkaUtils.KafkaMessageMap
  populate : KafkaUtils.KafkaMessageMap → List String

/-- Modelled from the spec: the SchemaCache of schema_registry.go, which is not
among the sources. -/
abbrev SchemaCache := List (Nat × String)

/-- Modelled from the spec: what a call of `unmarshalMessage` of
schema_registry.go, which is not among the sources, leaves behind and did. The
cache after the call, the schema ID requested from the registry if any, the
schema and bytes given to the binary decoder if any, the field map given to the
FieldMapper if any, and the returned errors. -/
structure Outcome where
  cache : SchemaCache
  requested : Option Nat
  decoded : Option (String × List Nat)
  mapped : Option KafkaUtils.KafkaMessageMap
  errs : List DecodeError

/-- Modelled from the spec: the schema ID of an envelope, for
schema_registry.go, which is not among the sources. Byte 0 is the magic byte,
bytes 1 to 4 are the big-endian unsigned 32-bit schema ID; an envelope has at
least 5 bytes. -/
def schemaID : List Nat → Option Nat
  | _ :: b1 :: b2 :: b3 :: b4 :: _ => some (b1 * 2 ^ 24 + b2 * 2 ^ 16 + b3 * 2 ^ 8 + b4)
  | _ => none

/-- Modelled from the spec: the last two steps of `unmarshalMessage` of
schema_registry.go, which is not among the sources. The payload bytes are
decoded with the resolved schema, and the field map goes to the FieldMapper,
whose errors are returned. -/
def decodeAndMap (c : Collaborators) (cache : SchemaCache) (requested : Option Nat)
    (schema : String) (body : List Nat) : Outcome :=
  match c.decodeBinary schema body with
  | .error reason =>
    { cache := cache, requested := requested, decoded := some (schema, body), mapped := none
      errs := [.payloadDecode reason] }
  | .ok fieldMap =>
    { cache := cache, requested := requested, decoded := some (schema, body)
      mapped := some fieldMap, errs := (c.populate fieldMap).map .fieldMapping }

/-- Modelled from the spec: `unmarshalMessage` of the Avro decoder of
schema_registry.go, which is not among the sources. The envelope is validated,
the schema ID is looked up in the cache and, on a miss, fetched from the
registry and stored; a fetch failure returns one error and leaves the cache
untouched. The bytes after the envelope header are then decoded and mapped. -/
def unmarshalMessage (c : Collaborators) (cache : SchemaCache) (payload : List Nat) :
    Outcome :=
  match schemaID payload with
  | none =>
    { cache := cache, requested := none, decoded := none, mapped := none
      errs := [.payloadDecode "envelope shorter than 5 bytes"] }
  | some id =>
    match cache.lookup id with
    | some schema => decodeAndMap c cache none schema (payload.drop 5)
    | none =>
      match c.getSchema id with
      | .error reason =>
        { cache := cache, requested := some id, decoded := none, mapped := none
          errs := [.schemaFetch reason] }
      | .ok schema =>
        decodeAndMap c ((id, schema) :: cache) (some id) schema (payload.drop 5)

/-- Collaborators of the example, after the mocks of schema_registry_test.go:
the registry knows schema 77, every payload decodes to one record, and the
mapper reports no error. -/
def sampleCollaborators : Collaborators where
  getSchema := fun id => if id = 77 then .ok "test" else .error "some error"
  decodeBinary := fun _ _ => .ok [("name", .string "Guy Fieri")]
  populate := fun _ => []

/-- Collaborators after the mocks of `TestUnmarshalMessage_InvalidSchema`: the
registry fails for every schema ID. -/
def failingRegistry : Collaborators where
  getSchema := fun _ => .error "some error"
  decodeBinary := fun _ _ => .ok [("name", .string "Guy Fieri")]
  populate := fun _ => []

/-- Collaborators after the mocks of `TestUnmarshalMessage_InvalidAvro`: the
registry knows schema 77 and the mapper reports one error. -/
def failingMapper : Collaborators where
  getSchema := fun id => if id = 77 then .ok "test" else .error "some error"
  decodeBinary := fun _ _ => .ok [("name", .string "Guy Fieri")]
  populate := fun _ => ["some error"]

end SchemaRegistry

/-! # The JSON decoder (kafka_json.go)

The file kafka_json.go is not among the sources; only its tests are. The
definitions of this section follow section 4.5 of the specification. -/

namespace JsonDecoder

/-- Modelled from the spec: the collaborators of the JSON decoder of
kafka_json.go, which is not among the sources. `parseObject` parses a payload
as a single JSON object into a field map, or gives the reason of the parse
failure; `populate` is the FieldMapper and returns its errors. -/
structure Collaborators where
  parseObject : List Nat → Except String KafkaUtils.KafkaMessageMap
  populate : KafkaUtils.KafkaMessageMap → List String

/-- Modelled from the spec: what a call of `UnmarshalMessage` of kafka_json.go,
which is not among the sources, did and returned: the field map given to the
FieldMapper if any, and the returned errors. -/
structure Outcome where
  mapped : Option KafkaUtils.KafkaMessageMap
  errs : List String

/-- Modelled from the spec: `UnmarshalMessage` of the JSON decoder of
kafka_json.go, which is not among the sources. The payload is parsed as a
single JSON object; a parse failure returns exactly one error and skips
mapping, otherwise the field map goes to the FieldMapper, whose errors are
returned. -/
def UnmarshalMessage (c : Collaborators) (payload : List Nat) : Outcome :=
  match c.parseObject payload with
  | .error reason => { mapped := none, errs := [reason] }
  | .ok fieldMap => { mapped := some fieldMap, errs := c.populate fieldMap }

/-- Collaborators of the example, after the mocks of kafka_json_test.go: the
payload that starts with an opening brace and ends with one closing brace
parses to one record, any other payload is rejected, and the mapper reports
one error. -/
def sampleCollaborators : Collaborators where
  parseObject := fun payload =>
    if payload.head? = some 123 ∧ payload.getLast? = some 125
        ∧ (payload.dropLast).getLast? ≠ some 125 then
      .ok [("where_to_go", .string "flavortown")]
    else .error "invalid character after top-level value"
  populate := fun _ => ["calcium levels too low to go to flavortown"]

end JsonDecoder

/-! # The topic consumer (kafka.go)

The file kafka.go is not among the sources; only its tests are. The
definitions of this section follow sections 4.1 and 4.2 of the specification.
A partition worker is followed through the list of the events it reads from
its partition before shutdown, in the order it reads them. -/

namespace Consumer

/-- Modelled from the spec: the requested starting offset of a partition, for
`ConsumeTopic` of kafka.go, which is not among the sources: one of the two
sentinels or a real offset. -/
inductive StartOffset where
  | oldest
  | newest
  | real (offset : Int)
deriving DecidableEq, Repr

/-- Modelled from the spec: the errors that stop `ConsumeTopic` of kafka.go,
which is not among the sources, from starting (section 7). -/
inductive StartError where
  | noPartitions
  | offsetResolution (reason : String)
deriving DecidableEq, Repr

/-- Modelled from the spec: the log client that `ConsumeTopic` of kafka.go,
which is not among the sources, queries: the partitions of a topic, and the
high-watermark offset of a partition. -/
structure LogClient where
  partitions : String → List Int
  highWatermark : String → Int → Except String Int

/-- Modelled from the spec: a PartitionWorker launched by `ConsumeTopic` of
kafka.go, which is not among the sources: its partition and the offset it
starts to read at. -/
structure Launch where
  partition : Int
  start : StartOffset
deriving DecidableEq, Repr

/-- Modelled from the spec: what a call of `ConsumeTopic` of kafka.go, which is
not among the sources, returned and did: the error if any, the count the
catch-up barrier was initialized to if it was, and the workers launched. -/
structure StartOutcome where
  error : Option StartError
  barrier : Option Nat
  launched : List Launch
deriving DecidableEq, Repr

/-- Modelled from the spec: the resolution of the starting offsets in
`ConsumeTopic` of kafka.go, which is not among the sources. For each partition
whose requested offset is the newest sentinel the high-watermark offset is
queried; a failure for any partition fails the whole resolution. -/
def resolveOffsets (client : LogClient) (topic : String) (offsets : Int → StartOffset) :
    List Int → Except String (List Launch)
  | [] => .ok []
  | p :: rest =>
    match offsets p with
    | .newest =>
      match client.highWatermark topic p with
      | .error reason => .error reason
      | .ok n =>
        match resolveOffsets client topic offsets rest with
        | .error reason => .error reason
        | .ok ls => .ok ({ partition := p, start := .real n } :: ls)
    | o =>
      match resolveOffsets client topic offsets rest with
      | .error reason => .error reason
      | .ok ls => .ok ({ partition := p, start := o } :: ls)

/-- Modelled from the spec: `ConsumeTopic` of kafka.go, which is not among the
sources. The partitions of the topic are looked up; without partitions the call
fails and starts no worker. The starting offsets are resolved, and a failure
aborts the call before any worker starts. Then the barrier is initialized to
the partition count and one worker is launched per partition. -/
def ConsumeTopic (client : LogClient) (topic : String) (offsets : Int → StartOffset) :
    StartOutcome :=
  match client.partitions topic with
  | [] => { error := some .noPartitions, barrier := none, launched := [] }
  | p :: ps =>
    match resolveOffsets client topic offsets (p :: ps) with
    | .error reason => { error := some (.offsetResolution reason), barrier := none, launched := [] }
    | .ok ls => { error := none, barrier := some (p :: ps).length, launched := ls }

/-- Modelled from the spec: an event a PartitionWorker (`consumePartition` of
kafka.go, which is not among the sources) reads from its partition: a message,
with its offset, or a stream error. -/
inductive Event where
  | message (offset : Int)
  | streamError (reason : String)
deriving DecidableEq, Repr

/-- Modelled from the spec: the parameters of a PartitionWorker
(`consumePartition` of kafka.go, which is not among the sources). The target
offset is the value used to decide that the worker has caught up; the tests
pass -1 for a partition without messages. The specification does not say what
the last processed offset is before any message: it is `initialOffset`. -/
structure Worker where
  partition : Int
  targetOffset : Int
  exitAfterCatchup : Bool
  initialOffset : Int
deriving DecidableEq, Repr

/-- Modelled from the spec: the ConsumerFinalStatus a PartitionWorker of
kafka.go, which is not among the sources, publishes at shutdown. -/
structure FinalStatus where
  partition : Int
  lastProcessedOffset : Int
deriving DecidableEq, Repr

/-- Modelled from the spec: the state of a PartitionWorker of kafka.go, which
is not among the sources, in its main loop. `handled` lists the offsets of the
messages delivered to the handler, oldest first. `signals` has one entry for
each time the worker decremented the catch-up barrier: the offsets of the
messages that had been delivered to the handler at that moment. `draining`
says that the worker has stopped reading. -/
structure WorkerState where
  lastProcessedOffset : Int
  handled : List Int
  signals : List (List Int)
  draining : Bool
deriving DecidableEq, Repr

/-- Modelled from the spec: the start of a PartitionWorker of kafka.go, which
is not among the sources. A worker of a partition without messages signals the
barrier without waiting for input. -/
def Worker.start (w : Worker) : WorkerState :=
  if w.targetOffset = -1 then
    { lastProcessedOffset := w.initialOffset, handled := [], signals := [[]]
      draining := w.exitAfterCatchup }
  else
    { lastProcessedOffset := w.initialOffset, handled := [], signals := [], draining := false }

/-- Modelled from the spec: one turn of the main loop of a PartitionWorker of
kafka.go, which is not among the sources. On a message the handler is invoked
and the offset recorded; when the offset has reached the target and the worker
has not signalled yet, it decrements the barrier; with `exitAfterCatchup` a
worker that has caught up goes on to drain. On a stream error the worker logs
and continues. -/
def Worker.step (w : Worker) (s : WorkerState) : Event → WorkerState
  | .message offset =>
    { lastProcessedOffset := offset
      handled := s.handled ++ [offset]
      signals :=
        if w.targetOffset ≤ offset ∧ s.signals = [] then [s.handled ++ [offset]]
        else s.signals
      draining := w.exitAfterCatchup && decide (w.targetOffset ≤ offset) }
  | .streamError _ => s

/-- Modelled from the spec: the main loop of a PartitionWorker of kafka.go,
which is not among the sources, over the events it can read before the
cancellation token fires. -/
def Worker.run (w : Worker) : WorkerState → List Event → WorkerState
  | s, [] => s
  | s, e :: rest => if s.draining then s else w.run (w.step s e) rest

/-- Modelled from the spec: `consumePartition` of kafka.go, which is not among
the sources: the state the worker stops in, and the statuses it publishes on
the status outlet, which is exactly one. -/
def Worker.consumePartition (w : Worker) (events : List Event) :
    WorkerState × List FinalStatus :=
  let s := w.run w.start events
  (s, [{ partition := w.partition, lastProcessedOffset := s.lastProcessedOffset }])

/-- What the loop keeps true of the signals of a worker: a worker without
backlog signalled once before any message; any other worker either has not
signalled and has only delivered messages below its target, or signalled once,
at the first message that reached the target. -/
def SignalInvariant (w : Worker) (s : WorkerState) : Prop :=
  (w.targetOffset = -1 → s.signals = [[]])
  ∧ (w.targetOffset ≠ -1 →
      (s.signals = [] ∧ ∀ x ∈ s.handled, x < w.targetOffset)
      ∨ ∃ q offset, s.signals = [q ++ [offset]] ∧ w.targetOffset ≤ offset
          ∧ (∀ x ∈ q, x < w.targetOffset) ∧ (q ++ [offset]) <+: s.handled)

/-- Whether an event is a message. -/
def Event.isMessage : Event → Bool
  | .message _ => true
  | .streamError _ => false

/-- Log client of the example, after `TestConsumeTopic_noTopics`: the topic has
no partitions. -/
def emptyTopicClient : LogClient where
  partitions := fun _ => []
  highWatermark := fun _ _ => .ok 2

/-- Worker of `TestConsumePartition`: partition 0, target offset 1. -/
def sampleWorker : Worker :=
  { partition := 0, targetOffset := 1, exitAfterCatchup := false, initialOffset := -1 }

/-- Worker of `TestConsumePartition_caughtUp`: partition 0, target offset -1. -/
def idleWorker : Worker :=
  { partition := 0, targetOffset := -1, exitAfterCatchup := false, initialOffset := -1 }

/-- Worker of partition 0 whose target offset is 5. -/
def lateWorker : Worker :=
  { partition := 0, targetOffset := 5, exitAfterCatchup := false, initialOffset := -1 }

end Consumer

namespace KafkaUtils

/-! ## How the loop composes -/

theorem appendErr_eq (errs : List String) (err : Option String) :
    appendErr errs err = errs ++ err.toList := by
  cases err <;> simp [appendErr]

/-- The errors collected before the loop starts are a prefix of what it returns. -/
theorem unmarshalLoop_acc (rt : GoRuntime) (m : KafkaMessageMap) (fs : List StructField)
    (errs : List String) :
    unmarshalLoop rt m fs errs =
      { fields := (unmarshalLoop rt m fs []).fields
        errs := (unmarshalLoop rt m fs []).errs.map (fun l => errs ++ l) } := by
  induction fs generalizing errs with
  | nil => simp [unmarshalLoop]
  | cons f rest ih =>
    simp only [unmarshalLoop]
    cases hstep : fieldStep rt m f with
    | panicked => simp
    | done g e =>
      simp only
      rw [ih (appendErr errs e), ih (appendErr [] e)]
      simp [appendErr_eq, Option.map_map, Function.comp_def]

theorem unmarshal_nil (rt : GoRuntime) (m : KafkaMessageMap) :
    unmarshalKafkaMessageMap rt m [] = { fields := [], errs := some [] } := by
  simp [unmarshalKafkaMessageMap, unmarshalLoop]

/-- One iteration of the loop, followed by the call on the remaining fields. -/
theorem unmarshal_cons (rt : GoRuntime) (m : KafkaMessageMap) (f : StructField)
    (fs : List StructField) :
    unmarshalKafkaMessageMap rt m (f :: fs) =
      match fieldStep rt m f with
      | .panicked => { fields := f :: fs, errs := none }
      | .done g e =>
        { fields := g :: (unmarshalKafkaMessageMap rt m fs).fields
          errs := (unmarshalKafkaMessageMap rt m fs).errs.map (fun l => e.toList ++ l) } := by
  simp only [unmarshalKafkaMessageMap, unmarshalLoop]
  cases hstep : fieldStep rt m f with
  | panicked => simp
  | done g e =>
    simp only
    rw [unmarshalLoop_acc rt m fs (appendErr [] e)]
    simp [appendErr_eq]

theorem unmarshal_fields_length (rt : GoRuntime) (m : KafkaMessageMap)
    (fs : List StructField) :
    (unmarshalKafkaMessageMap rt m fs).fields.length = fs.length := by
  induction fs with
  | nil => simp [unmarshal_nil]
  | cons f rest ih =>
    rw [unmarshal_cons]
    cases hstep : fieldStep rt m f <;> simp [ih]

/-- The call on a struct is the call on its first fields followed, unless that
panicked, by the call on the fields after them. -/
theorem unmarshal_append (rt : GoRuntime) (m : KafkaMessageMap) (xs ys : List StructField) :
    unmarshalKafkaMessageMap rt m (xs ++ ys) =
      match (unmarshalKafkaMessageMap rt m xs).errs with
      | none => { fields := (unmarshalKafkaMessageMap rt m xs).fields ++ ys, errs := none }
      | some e1 =>
        { fields := (unmarshalKafkaMessageMap rt m xs).fields
            ++ (unmarshalKafkaMessageMap rt m ys).fields
          errs := (unmarshalKafkaMessageMap rt m ys).errs.map (fun l => e1 ++ l) } := by
  induction xs with
  | nil =>
    simp only [List.nil_append, unmarshal_nil]
    cases h : (unmarshalKafkaMessageMap rt m ys).errs <;> simp [← h]
  | cons f rest ih =>
    rw [List.cons_append, unmarshal_cons, unmarshal_cons, ih]
    cases hstep : fieldStep rt m f with
    | panicked => simp
    | done g e =>
      cases hrest : (unmarshalKafkaMessageMap rt m rest).errs with
      | none => simp
      | some e1 => simp [Option.map_map, Function.comp_def]

/-- A field whose iteration ends normally, between fields whose calls return. -/
theorem unmarshal_around (rt : GoRuntime) (m : KafkaMessageMap)
    (pre post : List StructField) (f g : StructField) (e : Option String)
    (e1 e2 : List String) (hstep : fieldStep rt m f = .done g e)
    (hpre : (unmarshalKafkaMessageMap rt m pre).errs = some e1)
    (hpost : (unmarshalKafkaMessageMap rt m post).errs = some e2) :
    unmarshalKafkaMessageMap rt m (pre ++ f :: post) =
      { fields := (unmarshalKafkaMessageMap rt m pre).fields
          ++ g :: (unmarshalKafkaMessageMap rt m post).fields
        errs := some (e1 ++ e.toList ++ e2) } := by
  rw [unmarshal_append, hpre, unmarshal_cons, hstep]
  simp [hpost]

/-- A field whose iteration leaves it as it was holds its value after the call,
whatever happens to the other fields. -/
theorem unmarshal_keeps (rt : GoRuntime) (m : KafkaMessageMap)
    (pre post : List StructField) (f : StructField) (e : Option String)
    (hstep : fieldStep rt m f = .done f e) :
    (unmarshalKafkaMessageMap rt m (pre ++ f :: post)).fields[pre.length]? = some f := by
  have hlen := unmarshal_fields_length rt m pre
  rw [unmarshal_append]
  cases hpre : (unmarshalKafkaMessageMap rt m pre).errs with
  | none =>
    simp only
    rw [List.getElem?_append_right (by omega)]
    simp [hlen]
  | some e1 =>
    simp only
    rw [List.getElem?_append_right (by omega), unmarshal_cons, hstep]
    simp [hlen]

/-- A field whose iteration neither changes it nor records an error can be
taken out of the struct without changing anything else. -/
theorem unmarshal_skip (rt : GoRuntime) (m : KafkaMessageMap)
    (pre post : List StructField) (f : StructField)
    (hstep : fieldStep rt m f = .done f none) :
    unmarshalKafkaMessageMap rt m (pre ++ f :: post) =
      { fields := (unmarshalKafkaMessageMap rt m (pre ++ post)).fields.take pre.length
          ++ f :: (unmarshalKafkaMessageMap rt m (pre ++ post)).fields.drop pre.length
        errs := (unmarshalKafkaMessageMap rt m (pre ++ post)).errs } := by
  have hlen := unmarshal_fields_length rt m pre
  rw [unmarshal_append, unmarshal_append rt m pre post, unmarshal_cons, hstep]
  cases hpre : (unmarshalKafkaMessageMap rt m pre).errs with
  | none => simp [← hlen]
  | some e1 => simp [← hlen]

/-! ## One iteration -/

theorem fieldStep_absent (rt : GoRuntime) (m : KafkaMessageMap) (f : StructField)
    (h : m.lookup f.tag = none) : fieldStep rt m f = .done f none := by
  simp [fieldStep, h]

theorem fieldStep_null (rt : GoRuntime) (m : KafkaMessageMap) (f : StructField)
    (v : KafkaValue) (h : m.lookup f.tag = some v) (hu : unwrapNullable v = some .null) :
    fieldStep rt m f = .done f none := by
  simp [fieldStep, h, hu]

theorem fieldStep_value (rt : GoRuntime) (m : KafkaMessageMap) (f : StructField)
    (v u : KafkaValue) (h : m.lookup f.tag = some v) (hu : unwrapNullable v = some u)
    (hnn : u ≠ .null) :
    fieldStep rt m f = .done (setField rt f.tag f u).1 (setField rt f.tag f u).2 := by
  simp only [fieldStep, h, hu]

theorem fieldStep_panic (rt : GoRuntime) (m : KafkaMessageMap) (f : StructField)
    (v : KafkaValue) (h : m.lookup f.tag = some v) (hu : unwrapNullable v = none) :
    fieldStep rt m f = .panicked := by
  simp [fieldStep, h, hu]

theorem unwrapNullable_single (k : String) (v : KafkaValue) :
    unwrapNullable (.map [(k, v)]) = some v := by
  simp [unwrapNullable, List.lookup]

theorem unwrapNullable_scalar (v : KafkaValue) (hv : v.isNestedMap = false) :
    unwrapNullable v = some v := by
  cases v <;> simp_all [unwrapNullable, KafkaValue.isNestedMap]

/-- The call reads the message only through the iterations of the fields. -/
theorem unmarshal_congr (rt : GoRuntime) (m1 m2 : KafkaMessageMap) (fs : List StructField)
    (h : ∀ f ∈ fs, fieldStep rt m1 f = fieldStep rt m2 f) :
    unmarshalKafkaMessageMap rt m1 fs = unmarshalKafkaMessageMap rt m2 fs := by
  induction fs with
  | nil => simp [unmarshal_nil]
  | cons f rest ih =>
    rw [unmarshal_cons, unmarshal_cons, h f (List.mem_cons_self f rest),
      ih (fun g hg => h g (List.mem_cons_of_mem f hg))]

theorem unmarshal_empty_map (rt : GoRuntime) (target : List StructField) :
    unmarshalKafkaMessageMap rt [] target = { fields := target, errs := some [] } := by
  induction target with
  | nil => simp [unmarshal_nil]
  | cons f rest ih =>
    rw [unmarshal_cons, fieldStep_absent rt [] f (by simp [List.lookup]), ih]
    simp

/-! ## Nullable unwrapping, absent keys and null values -/

/-- C2. Nullable unwrapping is transparent. Let two messages agree on every key
but `t`, where the first binds `t` to the single-entry map from a type tag `k`
to a value `v` that is not itself a nested map (a string, boolean, number or
null) and the second binds `t` to `v` directly. Then the call leaves the same
target and returns the same error list on both. -/
theorem nullable_unwrapping_transparent (rt : GoRuntime) (m1 m2 : KafkaMessageMap)
    (t k : String) (v : KafkaValue) (target : List StructField)
    (hv : v.isNestedMap = false)
    (h1 : m1.lookup t = some (.map [(k, v)])) (h2 : m2.lookup t = some v)
    (hrest : ∀ key, key ≠ t → m1.lookup key = m2.lookup key) :
    unmarshalKafkaMessageMap rt m1 target = unmarshalKafkaMessageMap rt m2 target := by
  apply unmarshal_congr
  intro f _
  by_cases hf : f.tag = t
  · simp only [fieldStep, hf, h1, h2, unwrapNullable_single, unwrapNullable_scalar v hv]
  · simp only [fieldStep, hrest f.tag hf]

/-- Witness of C2: the message of `TestUnmarshalMap_NullableFields` and its
unwrapped form. -/
theorem nullable_unwrapping_transparent_witness :
    unmarshalKafkaMessageMap exampleRuntime [("a", .map [("int", .int32 123)])] [sampleA]
      = unmarshalKafkaMessageMap exampleRuntime [("a", .int32 123)] [sampleA] :=
  nullable_unwrapping_transparent exampleRuntime [("a", .map [("int", .int32 123)])]
    [("a", .int32 123)] "a" "int" (.int32 123) [sampleA] rfl rfl rfl
    (fun key hkey => by
      have hne : (key == "a") = false := by simpa using hkey
      simp [List.lookup, hne])

/-- C3. A field whose tag is not a key of the message keeps the value it had
before the call and contributes no error: the call on the struct leaves the
field in its place untouched, and leaves everything else, error list included,
exactly as the call on the struct without that field does. With an empty
message the target is unchanged and the returned list is empty. -/
theorem absent_key_field_unchanged (rt : GoRuntime) (m : KafkaMessageMap)
    (pre post : List StructField) (f : StructField) (h : m.lookup f.tag = none) :
    (unmarshalKafkaMessageMap rt m (pre ++ f :: post)).fields[pre.length]? = some f
    ∧ unmarshalKafkaMessageMap rt m (pre ++ f :: post) =
        { fields := (unmarshalKafkaMessageMap rt m (pre ++ post)).fields.take pre.length
            ++ f :: (unmarshalKafkaMessageMap rt m (pre ++ post)).fields.drop pre.length
          errs := (unmarshalKafkaMessageMap rt m (pre ++ post)).errs }
    ∧ unmarshalKafkaMessageMap rt [] (pre ++ f :: post) =
        { fields := pre ++ f :: post, errs := some [] } :=
  ⟨unmarshal_keeps rt m pre post f none (fieldStep_absent rt m f h),
    unmarshal_skip rt m pre post f (fieldStep_absent rt m f h),
    unmarshal_empty_map rt (pre ++ f :: post)⟩

/-- Witness of C3: field `A` has no entry in a message that only binds `b`. -/
theorem absent_key_field_unchanged_witness :
    List.lookup sampleA.tag [("b", KafkaValue.int32 1)] = none
    ∧ (unmarshalKafkaMessageMap exampleRuntime [("b", .int32 1)]
        ([sampleC] ++ sampleA :: [sampleB])).fields[[sampleC].length]? = some sampleA :=
  ⟨rfl, (absent_key_field_unchanged exampleRuntime [("b", .int32 1)] [sampleC] [sampleB]
    sampleA rfl).1⟩

/-- C4. A field whose tag maps to null, or to a single-entry map whose sole
value is null, is left unchanged and no error is recorded for it, whatever its
type and whether or not it is settable: the call leaves the field in its place
untouched, and leaves everything else, error list included, exactly as the
call on the struct without that field does. -/
theorem null_value_field_unchanged (rt : GoRuntime) (m : KafkaMessageMap)
    (pre post : List StructField) (f : StructField) (v : KafkaValue)
    (h : m.lookup f.tag = some v) (hnull : v = .null ∨ ∃ k, v = .map [(k, .null)]) :
    (unmarshalKafkaMessageMap rt m (pre ++ f :: post)).fields[pre.length]? = some f
    ∧ unmarshalKafkaMessageMap rt m (pre ++ f :: post) =
        { fields := (unmarshalKafkaMessageMap rt m (pre ++ post)).fields.take pre.length
            ++ f :: (unmarshalKafkaMessageMap rt m (pre ++ post)).fields.drop pre.length
          errs := (unmarshalKafkaMessageMap rt m (pre ++ post)).errs } := by
  have hu : unwrapNullable v = some .null := by
    rcases hnull with rfl | ⟨k, rfl⟩
    · rfl
    · exact unwrapNullable_single k .null
  have hstep := fieldStep_null rt m f v h hu
  exact ⟨unmarshal_keeps rt m pre post f none hstep, unmarshal_skip rt m pre post f hstep⟩

/-- Witness of C4: the unexported field `c` is bound to a wrapped null. -/
theorem null_value_field_unchanged_witness :
    List.lookup sampleC.tag [("c", KafkaValue.map [("int", .null)]), ("b", .int32 1)]
      = some (.map [("int", .null)])
    ∧ (unmarshalKafkaMessageMap exampleRuntime
        [("c", KafkaValue.map [("int", .null)]), ("b", .int32 1)]
        ([sampleA] ++ sampleC :: [sampleB])).fields[[sampleA].length]? = some sampleC :=
  ⟨rfl, (null_value_field_unchanged exampleRuntime
    [("c", KafkaValue.map [("int", .null)]), ("b", .int32 1)] [sampleA] [sampleB] sampleC
    (.map [("int", .null)]) rfl (Or.inr ⟨"int", rfl⟩)).1⟩

/-! ## The switch against the coercion table -/

theorem wrapUint_wrapUint (w : Nat) (hw : w ≤ 64) (i : Int) :
    wrapUint w (wrapUint 64 i : Nat) = wrapUint w i := by
  unfold wrapUint
  have hpos : (0 : Int) ≤ i % 2 ^ 64 := Int.emod_nonneg _ (by positivity)
  rw [Int.toNat_of_nonneg hpos]
  have hdvd : (2 : Int) ^ w ∣ 2 ^ 64 := pow_dvd_pow 2 hw
  rw [Int.emod_emod_of_dvd _ hdvd]

theorem setField_unsettable (rt : GoRuntime) (tag : String) (f : StructField)
    (u : KafkaValue) (hs : f.canSet = false) :
    setField rt tag f u = (f, some ("cannot set invalid field with tag " ++ tag)) := by
  simp [setField, hs]

theorem targetKind_supported (s : String) (k : TargetKind) (hk : targetKind s = some k) :
    s ∈ supportedTypes := by
  by_contra hmem
  simp only [supportedTypes, List.mem_cons, List.mem_singleton, List.not_mem_nil, or_false,
    not_or] at hmem
  obtain ⟨h1, h2, h3, h4, h5, h6, h7, h8, h9, h10, h11, h12, h13, h14, h15⟩ := hmem
  simp only [targetKind, if_neg h1, if_neg h2, if_neg h3, if_neg h4, if_neg h5, if_neg h6,
    if_neg h7, if_neg h8, if_neg h9, if_neg h10, if_neg h11, if_neg h12, if_neg h13,
    if_neg h14, if_neg h15] at hk
  exact absurd hk (by simp)

theorem targetKind_unsupported (s : String) (hk : targetKind s = none) :
    s ∉ supportedTypes := by
  intro hmem
  simp only [supportedTypes, List.mem_cons, List.mem_singleton, List.not_mem_nil,
    or_false] at hmem
  rcases hmem with h | h | h | h | h | h | h | h | h | h | h | h | h | h | h <;>
    · subst h
      exact absurd hk (by decide)

theorem setField_unsupported (rt : GoRuntime) (tag : String) (f : StructField)
    (u : KafkaValue) (hs : f.canSet = true) (hk : targetKind f.typeStr = none) :
    setField rt tag f u =
      (f, some ("unhandled Avro type " ++ f.typeStr ++ ", field with tag " ++ tag
        ++ " will not be set")) := by
  have hmem := targetKind_unsupported f.typeStr hk
  simp only [supportedTypes, List.mem_cons, List.mem_singleton, List.not_mem_nil, or_false,
    not_or] at hmem
  obtain ⟨h1, h2, h3, h4, h5, h6, h7, h8, h9, h10, h11, h12, h13, h14, h15⟩ := hmem
  unfold setField
  simp only [hs, StructField.isValid, Bool.and_self, if_true, List.mem_cons,
    List.mem_singleton, List.not_mem_nil, or_false, h1, h2, h3, h4, h5, h6, h7, h8, h9, h10,
    h11, h12, h13, h14, h15, if_false, or_self]

theorem setField_coerce (rt : GoRuntime) (tag : String) (f : StructField) (u : KafkaValue)
    (k : TargetKind) (x : FieldVal) (hs : f.canSet = true)
    (hk : targetKind f.typeStr = some k) (hx : k.coerce rt u = some x) :
    setField rt tag f u = ({ f with val := x }, none) := by
  have hmem := targetKind_supported f.typeStr k hk
  simp only [supportedTypes, List.mem_cons, List.mem_singleton, List.not_mem_nil,
    or_false] at hmem
  rcases hmem with h | h | h | h | h | h | h | h | h | h | h | h | h | h | h <;>
    · rw [h] at hk
      have hk2 := Option.some.inj hk
      simp only [targetKind] at hk2
      subst hk2
      cases u <;> simp_all [setField, StructField.isValid, TargetKind.coerce,
        StructField.setBool, StructField.setInt, StructField.setUint, StructField.setFloat,
        StructField.setString, StructField.setTime, intBits, timeUnix, wrapUint_wrapUint]
        <;> (split at hx <;> simp_all)

theorem accepts_eq_coerce (rt : GoRuntime) (k : TargetKind) (u : KafkaValue) :
    k.accepts rt u = (k.coerce rt u).isSome := by
  cases k <;> cases u <;> simp [TargetKind.accepts, TargetKind.acceptsRepr, TargetKind.coerce]
  rename_i s
  cases rt.timeParseRFC3339 s <;> simp [Except.toBool]

theorem setField_rejected (rt : GoRuntime) (tag : String) (f : StructField) (u : KafkaValue)
    (k : TargetKind) (hs : f.canSet = true) (hk : targetKind f.typeStr = some k)
    (hr : k.acceptsRepr u = false) :
    setField rt tag f u =
      (f, some ("error unmarshaling Kafka message, couldn't set " ++ k.word
        ++ " field with tag " ++ tag)) := by
  have hmem := targetKind_supported f.typeStr k hk
  simp only [supportedTypes, List.mem_cons, List.mem_singleton, List.not_mem_nil,
    or_false] at hmem
  rcases hmem with h | h | h | h | h | h | h | h | h | h | h | h | h | h | h <;>
    · rw [h] at hk
      have hk2 := Option.some.inj hk
      simp only [targetKind] at hk2
      subst hk2
      cases u <;> simp_all [setField, StructField.isValid, TargetKind.acceptsRepr,
        TargetKind.word]

theorem setField_badTime (rt : GoRuntime) (tag : String) (f : StructField) (s e : String)
    (hs : f.canSet = true) (hk : f.typeStr = "time.Time")
    (hp : rt.timeParseRFC3339 s = .error e) :
    setField rt tag f (.string s) =
      (f, some ("error unmarshaling Kafka message, failed to parse time field with tag "
        ++ tag ++ ", reason: " ++ e)) := by
  simp [setField, hs, hk, hp, StructField.isValid]

/-! ## Fields that record an error -/

/-- C7. A field that is not settable (unexported) and whose tag is present in
the message with a value that is not null after unwrapping keeps its value,
and its iteration records exactly one error, `cannot set invalid field with
tag <tag>`: between fields whose calls return `e1` and `e2`, the call returns
`e1`, that one error, then `e2`. -/
theorem unsettable_field_one_error (rt : GoRuntime) (m : KafkaMessageMap)
    (pre post : List StructField) (f : StructField) (v u : KafkaValue)
    (hv : m.lookup f.tag = some v) (hu : unwrapNullable v = some u) (hnn : u ≠ .null)
    (hs : f.canSet = false) :
    (unmarshalKafkaMessageMap rt m (pre ++ f :: post)).fields[pre.length]? = some f
    ∧ ∀ e1 e2, (unmarshalKafkaMessageMap rt m pre).errs = some e1 →
        (unmarshalKafkaMessageMap rt m post).errs = some e2 →
        unmarshalKafkaMessageMap rt m (pre ++ f :: post) =
          { fields := (unmarshalKafkaMessageMap rt m pre).fields
              ++ f :: (unmarshalKafkaMessageMap rt m post).fields
            errs := some (e1 ++ ["cannot set invalid field with tag " ++ f.tag] ++ e2) } := by
  have hstep : fieldStep rt m f =
      .done f (some ("cannot set invalid field with tag " ++ f.tag)) := by
    rw [fieldStep_value rt m f v u hv hu hnn, setField_unsettable rt f.tag f u hs]
  exact ⟨unmarshal_keeps rt m pre post f _ hstep,
    fun e1 e2 hpre hpost => unmarshal_around rt m pre post f f _ e1 e2 hstep hpre hpost⟩

/-- Witness of C7: the unexported field and the message of
`TestUnmarshalMap_UnexportedField`, whose value is a Go `int`. -/
theorem unsettable_field_one_error_witness :
    unmarshalKafkaMessageMap exampleRuntime [("c", .other "int")] ([] ++ sampleC :: []) =
      { fields := [] ++ sampleC :: []
        errs := some ([] ++ ["cannot set invalid field with tag " ++ sampleC.tag] ++ []) } :=
  (unsettable_field_one_error exampleRuntime [("c", .other "int")] [] [] sampleC
    (.other "int") (.other "int") rfl rfl (by simp) rfl).2 [] [] rfl rfl

/-- C8. A settable field of an unsupported type whose tag is present in the
message with a value that is not null after unwrapping keeps its value, and its
iteration records exactly one error, `unhandled Avro type <type>, field with
tag <tag> will not be set`: between fields whose calls return `e1` and `e2`,
the call returns `e1`, that one error, then `e2`. -/
theorem unsupported_type_one_error (rt : GoRuntime) (m : KafkaMessageMap)
    (pre post : List StructField) (f : StructField) (v u : KafkaValue)
    (hv : m.lookup f.tag = some v) (hu : unwrapNullable v = some u) (hnn : u ≠ .null)
    (hs : f.canSet = true) (hk : targetKind f.typeStr = none) :
    (unmarshalKafkaMessageMap rt m (pre ++ f :: post)).fields[pre.length]? = some f
    ∧ ∀ e1 e2, (unmarshalKafkaMessageMap rt m pre).errs = some e1 →
        (unmarshalKafkaMessageMap rt m post).errs = some e2 →
        unmarshalKafkaMessageMap rt m (pre ++ f :: post) =
          { fields := (unmarshalKafkaMessageMap rt m pre).fields
              ++ f :: (unmarshalKafkaMessageMap rt m post).fields
            errs := some (e1 ++ ["unhandled Avro type " ++ f.typeStr ++ ", field with tag "
              ++ f.tag ++ " will not be set"] ++ e2) } := by
  have hstep : fieldStep rt m f = .done f (some ("unhandled Avro type " ++ f.typeStr
      ++ ", field with tag " ++ f.tag ++ " will not be set")) := by
    rw [fieldStep_value rt m f v u hv hu hnn, setField_unsupported rt f.tag f u hs hk]
  exact ⟨unmarshal_keeps rt m pre post f _ hstep,
    fun e1 e2 hpre hpost => unmarshal_around rt m pre post f f _ e1 e2 hstep hpre hpost⟩

/-- Witness of C8: the `[]byte` field of `TestUnmarshalMap_UnsupportedType`. -/
theorem unsupported_type_one_error_witness :
    unmarshalKafkaMessageMap exampleRuntime [("d", .other "[]uint8")] ([] ++ sampleD :: []) =
      { fields := [] ++ sampleD :: []
        errs := some ([] ++ ["unhandled Avro type " ++ sampleD.typeStr ++ ", field with tag "
          ++ sampleD.tag ++ " will not be set"] ++ []) } :=
  (unsupported_type_one_error exampleRuntime [("d", .other "[]uint8")] [] [] sampleD
    (.other "[]uint8") (.other "[]uint8") rfl rfl (by simp) rfl (by decide)).2 [] [] rfl rfl

/-- C9. A settable field of a supported type whose tag is present with a value
that is not null after unwrapping and whose representation is outside the
accepted set of the type keeps its previous value, and its iteration records
exactly one error, which names the tag: between fields whose calls return `e1`
and `e2`, the call returns `e1`, that one error, then `e2`. -/
theorem rejected_value_one_error (rt : GoRuntime) (m : KafkaMessageMap)
    (pre post : List StructField) (f : StructField) (v u : KafkaValue) (k : TargetKind)
    (hv : m.lookup f.tag = some v) (hu : unwrapNullable v = some u) (hnn : u ≠ .null)
    (hs : f.canSet = true) (hk : targetKind f.typeStr = some k)
    (hr : k.acceptsRepr u = false) :
    (unmarshalKafkaMessageMap rt m (pre ++ f :: post)).fields[pre.length]? = some f
    ∧ ∀ e1 e2, (unmarshalKafkaMessageMap rt m pre).errs = some e1 →
        (unmarshalKafkaMessageMap rt m post).errs = some e2 →
        unmarshalKafkaMessageMap rt m (pre ++ f :: post) =
          { fields := (unmarshalKafkaMessageMap rt m pre).fields
              ++ f :: (unmarshalKafkaMessageMap rt m post).fields
            errs := some (e1 ++ ["error unmarshaling Kafka message, couldn't set " ++ k.word
              ++ " field with tag " ++ f.tag] ++ e2) } := by
  have hstep : fieldStep rt m f = .done f (some
      ("error unmarshaling Kafka message, couldn't set " ++ k.word ++ " field with tag "
        ++ f.tag)) := by
    rw [fieldStep_value rt m f v u hv hu hnn, setField_rejected rt f.tag f u k hs hk hr]
  exact ⟨unmarshal_keeps rt m pre post f _ hstep,
    fun e1 e2 hpre hpost => unmarshal_around rt m pre post f f _ e1 e2 hstep hpre hpost⟩

/-- Witness of C9: an int32 for a float64 field, after an unexported field. -/
theorem rejected_value_one_error_witness :
    unmarshalKafkaMessageMap exampleRuntime [("o", .int32 1), ("c", .int32 2)]
        ([sampleC] ++ sampleO :: []) =
      { fields := (unmarshalKafkaMessageMap exampleRuntime [("o", .int32 1), ("c", .int32 2)]
            [sampleC]).fields ++ sampleO :: []
        errs := some (["cannot set invalid field with tag c"]
          ++ ["error unmarshaling Kafka message, couldn't set " ++ TargetKind.float64.word
            ++ " field with tag " ++ sampleO.tag] ++ []) } :=
  (rejected_value_one_error exampleRuntime [("o", .int32 1), ("c", .int32 2)] [sampleC] []
    sampleO (.int32 1) (.int32 1) .float64 rfl rfl (by simp) rfl (by decide) rfl).2
    ["cannot set invalid field with tag c"] [] (by decide) rfl

/-! ## Integer fields -/

theorem two_pow_pred (w : Nat) (hw : 1 ≤ w) : (2 : Int) ^ w = 2 * 2 ^ (w - 1) := by
  obtain ⟨n, rfl⟩ : ∃ n, w = n + 1 := ⟨w - 1, by omega⟩
  simp [pow_succ, mul_comm]

/-- The conversion lands in the range of the signed type. -/
theorem wrapInt_range (w : Nat) (hw : 1 ≤ w) (i : Int) :
    -(2 ^ (w - 1)) ≤ wrapInt w i ∧ wrapInt w i < 2 ^ (w - 1) := by
  have hM := two_pow_pred w hw
  have hH : (0 : Int) < 2 ^ (w - 1) := by positivity
  have h0 : 0 ≤ i % 2 ^ w := Int.emod_nonneg _ (by positivity)
  have h1 : i % 2 ^ w < 2 ^ w := Int.emod_lt_of_pos _ (by positivity)
  unfold wrapInt
  simp only
  split_ifs with hlt <;> constructor <;> omega

/-- The conversion changes its argument by a multiple of `2 ^ w`. -/
theorem wrapInt_congr (w : Nat) (i : Int) : (2 : Int) ^ w ∣ wrapInt w i - i := by
  have hdiv : (2 : Int) ^ w ∣ i % 2 ^ w - i := by
    have h := Int.emod_add_ediv i (2 ^ w)
    exact ⟨-(i / 2 ^ w), by linarith⟩
  unfold wrapInt
  simp only
  split_ifs with hlt
  · exact hdiv
  · have h2 : i % 2 ^ w - 2 ^ w - i = (i % 2 ^ w - i) - 2 ^ w := by ring
    rw [h2]
    exact dvd_sub hdiv (dvd_refl _)

/-- The conversion keeps exactly the values of the range of the signed type. -/
theorem wrapInt_eq_self_iff (w : Nat) (hw : 1 ≤ w) (i : Int) :
    wrapInt w i = i ↔ -(2 ^ (w - 1)) ≤ i ∧ i < 2 ^ (w - 1) := by
  constructor
  · intro h
    have hr := wrapInt_range w hw i
    rw [h] at hr
    exact hr
  · rintro ⟨hlo, hhi⟩
    have hM := two_pow_pred w hw
    have hH : (0 : Int) < 2 ^ (w - 1) := by positivity
    unfold wrapInt
    simp only
    by_cases hneg : 0 ≤ i
    · have hr : i % 2 ^ w = i := Int.emod_eq_of_lt hneg (by omega)
      rw [hr, if_pos hhi]
    · have hr : i % 2 ^ w = i + 2 ^ w := by
        rw [← Int.add_emod_self]
        exact Int.emod_eq_of_lt (by omega) (by omega)
      rw [hr, if_neg (by omega)]
      ring

theorem intBits_pos (s : String) : 1 ≤ intBits s := by
  unfold intBits
  split_ifs <;> omega

theorem setField_signed (rt : GoRuntime) (tag : String) (f : StructField) (v : KafkaValue)
    (i : Int) (hs : f.canSet = true)
    (ht : f.typeStr ∈ ["int", "int8", "int16", "int32", "int64"])
    (hi : v = .int32 i ∨ v = .int64 i) :
    setField rt tag f v = ({ f with val := .int (wrapInt (intBits f.typeStr) i) }, none) := by
  have hb : f.typeStr ≠ "bool" := by
    intro h
    rw [h] at ht
    exact absurd ht (by decide)
  unfold setField
  simp only [hs, StructField.isValid, Bool.and_self, if_true, hb, ht, if_false]
  rcases hi with rfl | rfl <;> simp [StructField.setInt, hs]

/-- C10, as amended. A settable signed-integer field (int, int8, int16, int32
or int64, of width `w` bits) whose tag is bound to a 32-bit or 64-bit integer
`v` is set without error to `v` converted to `w` bits: the value of the range
from `-2^(w-1)` up to `2^(w-1)` that differs from `v` by a multiple of `2^w`.
The field holds `v` itself exactly when `v` lies in that range. -/
theorem signed_field_holds_converted_integer (rt : GoRuntime) (m : KafkaMessageMap)
    (pre post : List StructField) (f : StructField) (v : KafkaValue) (i : Int)
    (hs : f.canSet = true) (ht : f.typeStr ∈ ["int", "int8", "int16", "int32", "int64"])
    (hv : m.lookup f.tag = some v) (hi : v = .int32 i ∨ v = .int64 i) :
    (∀ e1 e2, (unmarshalKafkaMessageMap rt m pre).errs = some e1 →
        (unmarshalKafkaMessageMap rt m post).errs = some e2 →
        unmarshalKafkaMessageMap rt m (pre ++ f :: post) =
          { fields := (unmarshalKafkaMessageMap rt m pre).fields
              ++ { f with val := .int (wrapInt (intBits f.typeStr) i) }
                :: (unmarshalKafkaMessageMap rt m post).fields
            errs := some (e1 ++ e2) })
    ∧ (-(2 ^ (intBits f.typeStr - 1)) ≤ wrapInt (intBits f.typeStr) i
        ∧ wrapInt (intBits f.typeStr) i < 2 ^ (intBits f.typeStr - 1))
    ∧ (2 : Int) ^ intBits f.typeStr ∣ wrapInt (intBits f.typeStr) i - i
    ∧ (wrapInt (intBits f.typeStr) i = i ↔
        -(2 ^ (intBits f.typeStr - 1)) ≤ i ∧ i < 2 ^ (intBits f.typeStr - 1)) := by
  have hu : unwrapNullable v = some v := by rcases hi with rfl | rfl <;> rfl
  have hnn : v ≠ .null := by rcases hi with rfl | rfl <;> simp
  have hstep : fieldStep rt m f =
      .done { f with val := .int (wrapInt (intBits f.typeStr) i) } none := by
    rw [fieldStep_value rt m f v v hv hu hnn, setField_signed rt f.tag f v i hs ht hi]
  refine ⟨fun e1 e2 hpre hpost => ?_, wrapInt_range _ (intBits_pos _) i, wrapInt_congr _ i,
    wrapInt_eq_self_iff _ (intBits_pos _) i⟩
  have h := unmarshal_around rt m pre post f _ none e1 e2 hstep hpre hpost
  simpa using h

/-- Witness of C10 as amended: int32 300 into an int8 field. -/
theorem signed_field_holds_converted_integer_witness :
    unmarshalKafkaMessageMap exampleRuntime [("e", .int32 300)] ([] ++ sampleE :: []) =
      { fields := [] ++ { sampleE with val := .int (wrapInt (intBits sampleE.typeStr) 300) }
          :: []
        errs := some ([] ++ []) } :=
  (signed_field_holds_converted_integer exampleRuntime [("e", .int32 300)] [] [] sampleE
    (.int32 300) 300 rfl (by decide) rfl (Or.inl rfl)).1 [] [] rfl rfl

/-- Counterexample to C10 as stated: the int8 field bound to the int32 value
300 is set without error, and holds 44, not 300. -/
theorem signed_field_not_source_value :
    unmarshalKafkaMessageMap exampleRuntime [("e", .int32 300)] [sampleE] =
        { fields := [{ sampleE with val := .int 44 }], errs := some [] }
    ∧ ¬ (unmarshalKafkaMessageMap exampleRuntime [("e", .int32 300)] [sampleE]).fields
        = [{ sampleE with val := .int 300 }] := by
  decide

/-! ## The whole call -/

theorem unwrapNullable_none_iff (v : KafkaValue) :
    unwrapNullable v = none ↔ v = .map [] := by
  cases v with
  | map es =>
    cases es with
    | nil => simp [unwrapNullable]
    | cons e rest => simp [unwrapNullable]
  | _ => simp [unwrapNullable]

/-- The iteration of a field panics exactly when the key of the field is bound
to a nested map without entries. -/
theorem fieldPanics_iff (rt : GoRuntime) (m : KafkaMessageMap) (f : StructField) :
    fieldPanics rt m f = true ↔ m.lookup f.tag = some (.map []) := by
  unfold fieldPanics
  cases hv : m.lookup f.tag with
  | none => rw [fieldStep_absent rt m f hv]; simp
  | some v =>
    cases hu : unwrapNullable v with
    | none =>
      rw [fieldStep_panic rt m f v hv hu]
      simp [(unwrapNullable_none_iff v).1 hu]
    | some u =>
      have hne : v ≠ .map [] := fun h => by
        rw [(unwrapNullable_none_iff v).2 h] at hu
        exact absurd hu (by simp)
      by_cases hnn : u = .null
      · subst hnn
        rw [fieldStep_null rt m f v hv hu]
        simp [hne]
      · rw [fieldStep_value rt m f v u hv hu hnn]
        simp [hne]

/-- When no iteration panics, the call returns, every field is as its own
iteration leaves it, and the list holds the errors of the iterations in order. -/
theorem unmarshal_total (rt : GoRuntime) (m : KafkaMessageMap) (fs : List StructField)
    (h : ∀ f ∈ fs, fieldPanics rt m f = false) :
    unmarshalKafkaMessageMap rt m fs =
      { fields := fs.map (fieldAfter rt m), errs := some (fs.filterMap (fieldErr rt m)) } := by
  induction fs with
  | nil => simp [unmarshal_nil]
  | cons f rest ih =>
    have hf := h f (List.mem_cons_self f rest)
    rw [unmarshal_cons, ih (fun g hg => h g (List.mem_cons_of_mem f hg))]
    unfold fieldPanics at hf
    cases hstep : fieldStep rt m f with
    | panicked => simp [hstep] at hf
    | done g e =>
      cases e <;> simp [fieldAfter, fieldErr, hstep, List.filterMap_cons]

/-- The call returns exactly when no iteration panics. -/
theorem unmarshal_returns_iff (rt : GoRuntime) (m : KafkaMessageMap) (fs : List StructField) :
    (unmarshalKafkaMessageMap rt m fs).errs.isSome = true ↔
      ∀ f ∈ fs, fieldPanics rt m f = false := by
  constructor
  · intro hret
    induction fs with
    | nil => simp
    | cons f rest ih =>
      rw [unmarshal_cons] at hret
      cases hstep : fieldStep rt m f with
      | panicked => simp [hstep] at hret
      | done g e =>
        rw [hstep] at hret
        simp only [Option.isSome_map'] at hret
        intro x hx
        rcases List.mem_cons.1 hx with rfl | hx
        · simp [fieldPanics, hstep]
        · exact ih hret x hx
  · intro h
    rw [unmarshal_total rt m fs h]
    rfl

/-- The iteration of a field reads the message only at the key of the field. -/
theorem fieldStep_congr (rt : GoRuntime) (m1 m2 : KafkaMessageMap) (f : StructField)
    (h : m1.lookup f.tag = m2.lookup f.tag) : fieldStep rt m1 f = fieldStep rt m2 f := by
  simp only [fieldStep, h]

theorem coerce_null (rt : GoRuntime) (k : TargetKind) : k.coerce rt .null = none := by
  cases k <;> rfl

theorem targetKind_timestamp (s : String) (hk : targetKind s = some .timestamp) :
    s = "time.Time" := by
  have hmem := targetKind_supported s _ hk
  simp only [supportedTypes, List.mem_cons, List.mem_singleton, List.not_mem_nil,
    or_false] at hmem
  rcases hmem with h | h | h | h | h | h | h | h | h | h | h | h | h | h | h <;>
    first
    | exact h
    | (subst h; exact absurd hk (by decide))

/-- The switch records an error exactly for a field that is unsettable, of an
unsupported type, or given a value its kind does not accept. -/
theorem setField_err_isSome (rt : GoRuntime) (tag : String) (f : StructField)
    (u : KafkaValue) :
    (setField rt tag f u).2.isSome =
      (!f.canSet ||
        match targetKind f.typeStr with
        | none => true
        | some k => !k.accepts rt u) := by
  cases hs : f.canSet with
  | false => simp [setField_unsettable rt tag f u hs]
  | true =>
    cases hk : targetKind f.typeStr with
    | none => simp [setField_unsupported rt tag f u hs hk]
    | some k =>
      cases hx : k.coerce rt u with
      | some x => simp [setField_coerce rt tag f u k x hs hk hx, accepts_eq_coerce, hx]
      | none =>
        have hacc : k.accepts rt u = false := by rw [accepts_eq_coerce, hx]; rfl
        simp only [hacc, Bool.not_false, Bool.not_true, Bool.false_or]
        cases hr : k.acceptsRepr u with
        | false => simp [setField_rejected rt tag f u k hs hk hr]
        | true =>
          cases k <;> cases u <;>
            simp [TargetKind.acceptsRepr, TargetKind.coerce] at hr hx
          rename_i s
          cases hp : rt.timeParseRFC3339 s with
          | ok t => simp [hp] at hx
          | error e =>
            simp [setField_badTime rt tag f s e hs (targetKind_timestamp _ hk) hp]

/-- The iteration records an error exactly for a failing field. -/
theorem fieldErr_isSome (rt : GoRuntime) (m : KafkaMessageMap) (f : StructField)
    (hp : fieldPanics rt m f = false) :
    (fieldErr rt m f).isSome = fieldFails rt m f := by
  unfold fieldPanics at hp
  unfold fieldErr fieldFails
  cases hv : m.lookup f.tag with
  | none => rw [fieldStep_absent rt m f hv]; rfl
  | some v =>
    cases hu : unwrapNullable v with
    | none =>
      rw [fieldStep_panic rt m f v hv hu] at hp
      exact absurd hp (by simp)
    | some u =>
      by_cases hnn : u = .null
      · subst hnn
        rw [fieldStep_null rt m f v hv hu]
        simp [hu]
      · rw [fieldStep_value rt m f v u hv hu hnn]
        simp only [setField_err_isSome, hu]

theorem forall2_filter_filterMap (fs : List StructField) (g : StructField → Option String)
    (p : StructField → Bool) (h : ∀ f ∈ fs, (g f).isSome = p f) :
    List.Forall₂ (fun f e => g f = some e) (fs.filter p) (fs.filterMap g) := by
  induction fs with
  | nil => simp
  | cons f rest ih =>
    have hf := h f (List.mem_cons_self f rest)
    have ih2 := ih (fun x hx => h x (List.mem_cons_of_mem f hx))
    cases hg : g f with
    | none =>
      have hpf : p f = false := by rw [← hf, hg]; rfl
      simpa [List.filter_cons, hpf, List.filterMap_cons, hg] using ih2
    | some e =>
      have hpf : p f = true := by rw [← hf, hg]; rfl
      simpa [List.filter_cons, hpf, List.filterMap_cons, hg] using ih2

theorem fieldStep_populated (rt : GoRuntime) (m : KafkaMessageMap) (f : StructField)
    (v u : KafkaValue) (k : TargetKind) (x : FieldVal) (hs : f.canSet = true)
    (hk : targetKind f.typeStr = some k) (hv : m.lookup f.tag = some v)
    (hu : unwrapNullable v = some u) (hx : k.coerce rt u = some x) :
    fieldStep rt m f = .done { f with val := x } none := by
  have hnn : u ≠ .null := by
    rintro rfl
    rw [coerce_null] at hx
    exact absurd hx (by simp)
  rw [fieldStep_value rt m f v u hv hu hnn, setField_coerce rt f.tag f u k x hs hk hx]

/-! ## The claims on the whole call -/

/-- When every field whose key is present in the message is settable, of a
supported type and bound, possibly inside a single-entry nullable wrapper, to a
value its kind accepts, the call returns an empty list, every field whose key
is present holds the coerced source value, and every other field is unchanged.
The key of a field is the result of `Tag.Get`. -/
theorem unmarshal_populates (rt : GoRuntime) (m : KafkaMessageMap)
    (target : List StructField)
    (h : ∀ f ∈ target, ∀ v, m.lookup f.tag = some v →
      f.canSet = true ∧ ∃ k u, targetKind f.typeStr = some k ∧ unwrapNullable v = some u
        ∧ k.accepts rt u = true) :
    (unmarshalKafkaMessageMap rt m target).errs = some []
    ∧ (unmarshalKafkaMessageMap rt m target).fields.length = target.length
    ∧ (∀ (i : Nat) (f : StructField) (v : KafkaValue), target[i]? = some f →
        m.lookup f.tag = some v →
        ∃ k u x, targetKind f.typeStr = some k ∧ unwrapNullable v = some u
          ∧ k.coerce rt u = some x
          ∧ (unmarshalKafkaMessageMap rt m target).fields[i]? = some { f with val := x })
    ∧ (∀ (i : Nat) (f : StructField), target[i]? = some f → m.lookup f.tag = none →
        (unmarshalKafkaMessageMap rt m target).fields[i]? = some f) := by
  have hstep : ∀ f ∈ target, ∀ v, m.lookup f.tag = some v →
      ∃ k u x, targetKind f.typeStr = some k ∧ unwrapNullable v = some u
        ∧ k.coerce rt u = some x ∧ fieldStep rt m f = .done { f with val := x } none := by
    intro f hf v hv
    obtain ⟨hs, k, u, hk, hu, hacc⟩ := h f hf v hv
    rw [accepts_eq_coerce] at hacc
    obtain ⟨x, hx⟩ := Option.isSome_iff_exists.1 hacc
    exact ⟨k, u, x, hk, hu, hx, fieldStep_populated rt m f v u k x hs hk hv hu hx⟩
  have hnone : ∀ f ∈ target, fieldErr rt m f = none ∧ fieldPanics rt m f = false := by
    intro f hf
    cases hv : m.lookup f.tag with
    | none => simp [fieldErr, fieldPanics, fieldStep_absent rt m f hv]
    | some v =>
      obtain ⟨k, u, x, _, _, _, hst⟩ := hstep f hf v hv
      simp [fieldErr, fieldPanics, hst]
  have htot := unmarshal_total rt m target (fun f hf => (hnone f hf).2)
  refine ⟨?_, unmarshal_fields_length rt m target, ?_, ?_⟩
  · rw [htot]
    simp only [Option.some.injEq, List.filterMap_eq_nil_iff]
    exact fun f hf => (hnone f hf).1
  · intro i f v hi hv
    obtain ⟨k, u, x, hk, hu, hx, hst⟩ := hstep f (List.getElem?_mem hi) v hv
    refine ⟨k, u, x, hk, hu, hx, ?_⟩
    rw [htot]
    simp [List.getElem?_map, hi, fieldAfter, hst]
  · intro i f hi hv
    rw [htot]
    simp [List.getElem?_map, hi, fieldAfter, fieldStep_absent rt m f hv]


/-- C1, as amended. Let all tagged fields of the target be settable and of a
supported type, let every present key hold, possibly inside a single-entry
nullable wrapper, a non-null value of a representation accepted for the type of
its field (a time string being valid RFC3339), and let the message have no
entry under the empty string when the target has a field without `kafka`
annotation. Then the call returns an empty error list, every field whose key is
present holds the coerced source value, and every other field is unchanged. -/
theorem tagged_fields_populated (rt : GoRuntime) (m : KafkaMessageMap)
    (target : List StructField)
    (hT : ∀ f ∈ target, f.tag ≠ "" → f.canSet = true ∧ (targetKind f.typeStr).isSome = true)
    (hM : ∀ f ∈ target, ∀ v k, m.lookup f.tag = some v → targetKind f.typeStr = some k →
      ∃ u, unwrapNullable v = some u ∧ k.accepts rt u = true)
    (hE : ∀ f ∈ target, f.tag = "" → m.lookup "" = none) :
    (unmarshalKafkaMessageMap rt m target).errs = some []
    ∧ (unmarshalKafkaMessageMap rt m target).fields.length = target.length
    ∧ (∀ (i : Nat) (f : StructField) (v : KafkaValue), target[i]? = some f →
        m.lookup f.tag = some v →
        ∃ k u x, targetKind f.typeStr = some k ∧ unwrapNullable v = some u
          ∧ k.coerce rt u = some x
          ∧ (unmarshalKafkaMessageMap rt m target).fields[i]? = some { f with val := x })
    ∧ (∀ (i : Nat) (f : StructField), target[i]? = some f → m.lookup f.tag = none →
        (unmarshalKafkaMessageMap rt m target).fields[i]? = some f) := by
  apply unmarshal_populates
  intro f hf v hv
  have htag : f.tag ≠ "" := by
    intro h0
    have hnone := hE f hf h0
    rw [h0] at hv
    rw [hnone] at hv
    exact absurd hv (by simp)
  obtain ⟨hs, hsup⟩ := hT f hf htag
  obtain ⟨k, hk⟩ := Option.isSome_iff_exists.1 hsup
  obtain ⟨u, hu, hacc⟩ := hM f hf v k hv hk
  exact ⟨hs, k, u, hk, hu, hacc⟩

/-- Witness of C1 as amended: a wrapped int32 and an int64 for two int fields,
beside a float64 field whose key is absent. -/
theorem tagged_fields_populated_witness :
    (unmarshalKafkaMessageMap exampleRuntime
      [("a", .map [("int", .int32 123)]), ("b", .int64 5)] [sampleA, sampleO, sampleB]).errs
      = some [] :=
  (tagged_fields_populated exampleRuntime
    [("a", .map [("int", .int32 123)]), ("b", .int64 5)] [sampleA, sampleO, sampleB]
    (by decide)
    (by
      intro f hf v k hv hk
      simp only [List.mem_cons, List.mem_singleton, List.not_mem_nil, or_false] at hf
      rcases hf with rfl | rfl | rfl
      · have hv2 : v = .map [("int", .int32 123)] := by
          simpa [sampleA, List.lookup] using hv.symm
        have hk2 : k = .signed 64 := by simpa [sampleA, targetKind] using hk.symm
        subst hv2 hk2
        exact ⟨.int32 123, rfl, rfl⟩
      · exact absurd hv (by simp [sampleO, List.lookup])
      · have hv2 : v = .int64 5 := by
          simpa [sampleB, List.lookup] using hv.symm
        have hk2 : k = .signed 64 := by simpa [sampleB, targetKind] using hk.symm
        subst hv2 hk2
        exact ⟨.int64 5, rfl, rfl⟩)
    (fun _ _ _ => rfl)).1

/-- Counterexample to C1 as stated. The target has one tagged field, `B`,
settable and of type int, and an unexported field `x` without `kafka`
annotation. The message binds `b` and the empty key to int32 values, which int
accepts. All tagged fields are settable and supported and every present key
holds an accepted value, yet the returned list is not empty: the field without
annotation is looked up under the empty key and is not settable. -/
theorem untagged_field_breaks_empty_list :
    (∀ f ∈ [sampleX, sampleB], f.tag ≠ "" →
        f.canSet = true ∧ (targetKind f.typeStr).isSome = true)
    ∧ (∀ f ∈ [sampleX, sampleB], ∀ v,
        List.lookup f.tag [("", KafkaValue.int32 1), ("b", .int32 2)] = some v →
        ∃ k, targetKind f.typeStr = some k ∧ k.accepts exampleRuntime v = true)
    ∧ unmarshalKafkaMessageMap exampleRuntime [("", .int32 1), ("b", .int32 2)]
        [sampleX, sampleB] =
      { fields := [sampleX, { sampleB with val := .int 2 }]
        errs := some ["cannot set invalid field with tag "] } := by
  refine ⟨by decide, ?_, by decide⟩
  intro f hf v hv
  simp only [List.mem_cons, List.mem_singleton, List.not_mem_nil, or_false] at hf
  rcases hf with rfl | rfl
  · have hv2 : v = .int32 1 := by simpa [sampleX, List.lookup] using hv.symm
    subst hv2
    exact ⟨.signed 64, by decide, rfl⟩
  · have hv2 : v = .int32 2 := by simpa [sampleB, List.lookup] using hv.symm
    subst hv2
    exact ⟨.signed 64, by decide, rfl⟩

/-- C5, the code at the failing input. Field `B` alone is populated from the
message. In a struct where field `A` comes first and the message binds `a` to a
nested map without entries, the iteration of `A` panics: the call returns no
list and `B` keeps its old value. -/
theorem empty_nested_map_aborts_mapping :
    unmarshalKafkaMessageMap exampleRuntime [("a", .map []), ("b", .int32 1)] [sampleB] =
        { fields := [{ sampleB with val := .int 1 }], errs := some [] }
    ∧ unmarshalKafkaMessageMap exampleRuntime [("a", .map []), ("b", .int32 1)]
        [sampleA, sampleB] = { fields := [sampleA, sampleB], errs := none } := by
  decide

/-- C6. The call returns a list unless the key of some field is bound to a
nested map without entries. The returned list is the complete list of per-field
errors: it matches, one to one and in declaration order, the failing fields
(key present with a value that is not null after unwrapping, and the field
unsettable, of an unsupported type, or given a value its type does not accept),
each entry being the error the iteration of its field records. Hence it is
empty exactly when no field fails. -/
theorem returned_list_is_complete (rt : GoRuntime) (m : KafkaMessageMap)
    (target : List StructField) :
    ((unmarshalKafkaMessageMap rt m target).errs.isSome = true ↔
      ∀ f ∈ target, m.lookup f.tag ≠ some (.map []))
    ∧ ∀ errs, (unmarshalKafkaMessageMap rt m target).errs = some errs →
        List.Forall₂ (fun f e => fieldErr rt m f = some e)
          (target.filter (fieldFails rt m)) errs
        ∧ (errs = [] ↔ ∀ f ∈ target, fieldFails rt m f = false) := by
  have hpanic : ∀ f, fieldPanics rt m f = false ↔ m.lookup f.tag ≠ some (.map []) := by
    intro f
    rw [← not_iff_not, Bool.not_eq_false, not_not]
    exact fieldPanics_iff rt m f
  constructor
  · rw [unmarshal_returns_iff]
    exact forall₂_congr (fun f _ => hpanic f)
  · intro errs herrs
    have hret : ∀ f ∈ target, fieldPanics rt m f = false :=
      (unmarshal_returns_iff rt m target).1 (by rw [herrs]; rfl)
    rw [unmarshal_total rt m target hret] at herrs
    have herrs2 : target.filterMap (fieldErr rt m) = errs := Option.some.inj herrs
    have hall := forall2_filter_filterMap target (fieldErr rt m) (fieldFails rt m)
      (fun f hf => fieldErr_isSome rt m f (hret f hf))
    rw [herrs2] at hall
    refine ⟨hall, ?_⟩
    constructor
    · intro hnil
      rw [hnil] at hall
      have hfil : target.filter (fieldFails rt m) = [] := by
        cases hl : target.filter (fieldFails rt m) with
        | nil => rfl
        | cons a l => rw [hl] at hall; cases hall
      intro f hf
      by_contra hne
      have : f ∈ target.filter (fieldFails rt m) := by
        simp [List.mem_filter, hf, hne]
      rw [hfil] at this
      exact absurd this (List.not_mem_nil f)
    · intro hno
      have hfil : target.filter (fieldFails rt m) = [] := by
        rw [List.filter_eq_nil_iff]
        intro f hf
        simp [hno f hf]
      rw [hfil] at hall
      cases hall
      rfl

/-- Witness of C6: an unexported field, a settable int field and a `[]byte`
field, all bound; the list holds the two errors in declaration order. -/
theorem returned_list_is_complete_witness :
    (unmarshalKafkaMessageMap exampleRuntime
      [("c", .int32 1), ("a", .int32 5), ("d", .other "[]uint8")]
      [sampleC, sampleA, sampleD]).errs
      = some ["cannot set invalid field with tag c",
          "unhandled Avro type []uint8, field with tag d will not be set"]
    ∧ List.Forall₂ (fun f e => fieldErr exampleRuntime
          [("c", .int32 1), ("a", .int32 5), ("d", .other "[]uint8")] f = some e)
        ([sampleC, sampleA, sampleD].filter (fieldFails exampleRuntime
          [("c", .int32 1), ("a", .int32 5), ("d", .other "[]uint8")]))
        ["cannot set invalid field with tag c",
          "unhandled Avro type []uint8, field with tag d will not be set"] :=
  ⟨by decide, ((returned_list_is_complete exampleRuntime
    [("c", .int32 1), ("a", .int32 5), ("d", .other "[]uint8")]
    [sampleC, sampleA, sampleD]).2 _ (by decide)).1⟩

/-! ## Unsigned, boolean and time fields -/

theorem targetKind_unsigned (s : String)
    (h : s ∈ ["uint", "uint8", "uint16", "uint32", "uint64"]) :
    targetKind s = some (.unsigned (intBits s)) := by
  simp only [List.mem_cons, List.mem_singleton, List.not_mem_nil, or_false] at h
  rcases h with h | h | h | h | h <;> (subst h; decide)

theorem intBits_le (s : String) : intBits s ≤ 64 := by
  unfold intBits
  split_ifs <;> omega

theorem wrapUint_cast (w : Nat) (i : Int) : ((wrapUint w i : Nat) : Int) = i % 2 ^ w := by
  unfold wrapUint
  exact Int.toNat_of_nonneg (Int.emod_nonneg _ (by positivity))

/-- An iteration that populates the field, between fields whose calls return. -/
theorem unmarshal_around_populated (rt : GoRuntime) (m : KafkaMessageMap)
    (pre post : List StructField) (f : StructField) (v u : KafkaValue) (k : TargetKind)
    (x : FieldVal) (hs : f.canSet = true) (hk : targetKind f.typeStr = some k)
    (hv : m.lookup f.tag = some v) (hu : unwrapNullable v = some u)
    (hx : k.coerce rt u = some x) (e1 e2 : List String)
    (hpre : (unmarshalKafkaMessageMap rt m pre).errs = some e1)
    (hpost : (unmarshalKafkaMessageMap rt m post).errs = some e2) :
    unmarshalKafkaMessageMap rt m (pre ++ f :: post) =
      { fields := (unmarshalKafkaMessageMap rt m pre).fields
          ++ { f with val := x } :: (unmarshalKafkaMessageMap rt m post).fields
        errs := some (e1 ++ e2) } := by
  have hstep := fieldStep_populated rt m f v u k x hs hk hv hu hx
  have h := unmarshal_around rt m pre post f _ none e1 e2 hstep hpre hpost
  simpa using h

/-- C11. A settable unsigned-integer field (uint, uint8, uint16, uint32 or
uint64, of width `w` bits) whose tag is bound to a 32-bit or 64-bit signed
integer `v` is set without error to `v` cast unsigned, which is `v mod 2^w`; a
non-negative `v` below `2^w` is stored exactly. -/
theorem unsigned_field_holds_cast_integer (rt : GoRuntime) (m : KafkaMessageMap)
    (pre post : List StructField) (f : StructField) (v : KafkaValue) (i : Int)
    (hs : f.canSet = true)
    (ht : f.typeStr ∈ ["uint", "uint8", "uint16", "uint32", "uint64"])
    (hv : m.lookup f.tag = some v) (hi : v = .int32 i ∨ v = .int64 i) :
    (∀ e1 e2, (unmarshalKafkaMessageMap rt m pre).errs = some e1 →
        (unmarshalKafkaMessageMap rt m post).errs = some e2 →
        unmarshalKafkaMessageMap rt m (pre ++ f :: post) =
          { fields := (unmarshalKafkaMessageMap rt m pre).fields
              ++ { f with val := .uint (wrapUint (intBits f.typeStr) i) }
                :: (unmarshalKafkaMessageMap rt m post).fields
            errs := some (e1 ++ e2) })
    ∧ ((wrapUint (intBits f.typeStr) i : Nat) : Int) = i % 2 ^ intBits f.typeStr
    ∧ (0 ≤ i → i < 2 ^ intBits f.typeStr →
        ((wrapUint (intBits f.typeStr) i : Nat) : Int) = i) := by
  have hu : unwrapNullable v = some v := by rcases hi with rfl | rfl <;> rfl
  have hx : (TargetKind.unsigned (intBits f.typeStr)).coerce rt v
      = some (.uint (wrapUint (intBits f.typeStr) i)) := by
    rcases hi with rfl | rfl <;> rfl
  refine ⟨fun e1 e2 hpre hpost => ?_, wrapUint_cast _ i, fun h0 h1 => ?_⟩
  · exact unmarshal_around_populated rt m pre post f v v _ _ hs (targetKind_unsigned _ ht)
      hv hu hx e1 e2 hpre hpost
  · rw [wrapUint_cast]
    exact Int.emod_eq_of_lt h0 h1

/-- Witness of C11: int32 -1 into a uint8 field gives 255. -/
theorem unsigned_field_holds_cast_integer_witness :
    unmarshalKafkaMessageMap exampleRuntime [("g", .int32 (-1))] ([] ++ sampleG :: []) =
      { fields := [] ++ { sampleG with val := .uint (wrapUint (intBits sampleG.typeStr) (-1)) }
          :: []
        errs := some ([] ++ []) }
    ∧ wrapUint (intBits sampleG.typeStr) (-1) = 255 :=
  ⟨(unsigned_field_holds_cast_integer exampleRuntime [("g", .int32 (-1))] [] [] sampleG
    (.int32 (-1)) (-1) rfl (by decide) rfl (Or.inl rfl)).1 [] [] rfl rfl, by decide⟩

/-- C12. A settable bool field whose tag is bound to a 32-bit or 64-bit integer
`v` is set without error to true exactly when `v > 0`, and one whose tag is
bound to a native boolean is set without error to that boolean. -/
theorem bool_field_from_integer_or_bool (rt : GoRuntime) (m : KafkaMessageMap)
    (pre post : List StructField) (f : StructField) (v : KafkaValue)
    (hs : f.canSet = true) (ht : f.typeStr = "bool") (hv : m.lookup f.tag = some v) :
    (∀ i, v = .int32 i ∨ v = .int64 i →
      ∀ e1 e2, (unmarshalKafkaMessageMap rt m pre).errs = some e1 →
        (unmarshalKafkaMessageMap rt m post).errs = some e2 →
        unmarshalKafkaMessageMap rt m (pre ++ f :: post) =
          { fields := (unmarshalKafkaMessageMap rt m pre).fields
              ++ { f with val := .bool (decide (i > 0)) }
                :: (unmarshalKafkaMessageMap rt m post).fields
            errs := some (e1 ++ e2) })
    ∧ (∀ b, v = .bool b →
      ∀ e1 e2, (unmarshalKafkaMessageMap rt m pre).errs = some e1 →
        (unmarshalKafkaMessageMap rt m post).errs = some e2 →
        unmarshalKafkaMessageMap rt m (pre ++ f :: post) =
          { fields := (unmarshalKafkaMessageMap rt m pre).fields
              ++ { f with val := .bool b } :: (unmarshalKafkaMessageMap rt m post).fields
            errs := some (e1 ++ e2) }) := by
  have hk : targetKind f.typeStr = some .boolean := by rw [ht]; decide
  constructor
  · intro i hi e1 e2 hpre hpost
    have hu : unwrapNullable v = some v := by rcases hi with rfl | rfl <;> rfl
    have hx : TargetKind.boolean.coerce rt v = some (.bool (decide (i > 0))) := by
      rcases hi with rfl | rfl <;> rfl
    exact unmarshal_around_populated rt m pre post f v v _ _ hs hk hv hu hx e1 e2 hpre hpost
  · intro b hb e1 e2 hpre hpost
    subst hb
    exact unmarshal_around_populated rt m pre post f _ _ _ _ hs hk hv rfl rfl e1 e2 hpre hpost

/-- Witness of C12: int32 0, as in `TestUnmarshalMap`, sets a true field to
false, and the boolean true sets it to true. -/
theorem bool_field_from_integer_or_bool_witness :
    unmarshalKafkaMessageMap exampleRuntime [("k", .int32 0)] ([] ++ sampleK :: []) =
        { fields := [] ++ { sampleK with val := .bool (decide ((0 : Int) > 0)) } :: []
          errs := some ([] ++ []) }
    ∧ unmarshalKafkaMessageMap exampleRuntime [("k", .bool true)] ([] ++ sampleK :: []) =
        { fields := [] ++ { sampleK with val := .bool true } :: []
          errs := some ([] ++ []) } :=
  ⟨(bool_field_from_integer_or_bool exampleRuntime [("k", .int32 0)] [] [] sampleK
      (.int32 0) rfl rfl rfl).1 0 (Or.inl rfl) [] [] rfl rfl,
    (bool_field_from_integer_or_bool exampleRuntime [("k", .bool true)] [] [] sampleK
      (.bool true) rfl rfl rfl).2 true rfl [] [] rfl rfl⟩

/-- C13, as amended. A settable `time.Time` field whose tag is bound to a
64-bit integer `ms` is set without error to the local time whose offset from
the Unix epoch, in nanoseconds, is `ms * 1000000` computed in 64-bit
arithmetic. That is the instant exactly `ms` milliseconds after the epoch when,
and only when, `ms * 1000000` fits a signed 64-bit integer. -/
theorem time_field_from_epoch_millis (rt : GoRuntime) (m : KafkaMessageMap)
    (pre post : List StructField) (f : StructField) (ms : Int)
    (hs : f.canSet = true) (ht : f.typeStr = "time.Time")
    (hv : m.lookup f.tag = some (.int64 ms)) :
    (∀ e1 e2, (unmarshalKafkaMessageMap rt m pre).errs = some e1 →
        (unmarshalKafkaMessageMap rt m post).errs = some e2 →
        unmarshalKafkaMessageMap rt m (pre ++ f :: post) =
          { fields := (unmarshalKafkaMessageMap rt m pre).fields
              ++ { f with val := .time ⟨wrapInt 64 (ms * 1000000), none⟩ }
                :: (unmarshalKafkaMessageMap rt m post).fields
            errs := some (e1 ++ e2) })
    ∧ (wrapInt 64 (ms * 1000000) = ms * 1000000 ↔
        -(2 ^ 63) ≤ ms * 1000000 ∧ ms * 1000000 < 2 ^ 63) := by
  have hk : targetKind f.typeStr = some .timestamp := by rw [ht]; decide
  refine ⟨fun e1 e2 hpre hpost => ?_, wrapInt_eq_self_iff 64 (by omega) _⟩
  exact unmarshal_around_populated rt m pre post f _ _ _ _ hs hk hv rfl rfl e1 e2 hpre hpost

/-- Witness of C13 as amended: the epoch milliseconds of `TestUnmarshalMap`. -/
theorem time_field_from_epoch_millis_witness :
    unmarshalKafkaMessageMap exampleRuntime [("m", .int64 1522083600000)]
        ([] ++ sampleM :: []) =
      { fields := [] ++ { sampleM with val := .time ⟨wrapInt 64 (1522083600000 * 1000000), none⟩ } :: []
        errs := some ([] ++ []) }
    ∧ wrapInt 64 (1522083600000 * 1000000) = 1522083600 * 1000000000 :=
  ⟨(time_field_from_epoch_millis exampleRuntime [("m", .int64 1522083600000)] [] []
    sampleM 1522083600000 rfl rfl rfl).1 [] [] rfl rfl, by decide⟩

/-- Counterexample to C13 as stated: 9223372036855 is a 64-bit integer, and
the field bound to it is set, without error, to an instant before the epoch,
not to the instant 9223372036855 milliseconds after it. -/
theorem time_field_wraps_large_millis :
    unmarshalKafkaMessageMap exampleRuntime [("m", .int64 9223372036855)] [sampleM] =
        { fields := [{ sampleM with val := .time ⟨-9223372036854551616, none⟩ }]
          errs := some [] }
    ∧ (-9223372036854551616 : Int) ≠ 9223372036855 * 1000000
    ∧ (9223372036855 : Int) < 2 ^ 63 := by
  decide

/-- C14. For a settable `time.Time` field whose tag is bound to a string `s`:
when `s` parses as RFC3339 the field is set to the parsed time and no error is
recorded; when parsing fails the field is left unchanged and exactly one error
is recorded, which names the tag and the reason of the parse failure. -/
theorem time_field_from_string (rt : GoRuntime) (m : KafkaMessageMap)
    (pre post : List StructField) (f : StructField) (s : String)
    (hs : f.canSet = true) (ht : f.typeStr = "time.Time")
    (hv : m.lookup f.tag = some (.string s)) :
    (∀ t, rt.timeParseRFC3339 s = .ok t →
      ∀ e1 e2, (unmarshalKafkaMessageMap rt m pre).errs = some e1 →
        (unmarshalKafkaMessageMap rt m post).errs = some e2 →
        unmarshalKafkaMessageMap rt m (pre ++ f :: post) =
          { fields := (unmarshalKafkaMessageMap rt m pre).fields
              ++ { f with val := .time t } :: (unmarshalKafkaMessageMap rt m post).fields
            errs := some (e1 ++ e2) })
    ∧ (∀ reason, rt.timeParseRFC3339 s = .error reason →
      (unmarshalKafkaMessageMap rt m (pre ++ f :: post)).fields[pre.length]? = some f
      ∧ ∀ e1 e2, (unmarshalKafkaMessageMap rt m pre).errs = some e1 →
        (unmarshalKafkaMessageMap rt m post).errs = some e2 →
        unmarshalKafkaMessageMap rt m (pre ++ f :: post) =
          { fields := (unmarshalKafkaMessageMap rt m pre).fields
              ++ f :: (unmarshalKafkaMessageMap rt m post).fields
            errs := some (e1 ++
              ["error unmarshaling Kafka message, failed to parse time field with tag "
                ++ f.tag ++ ", reason: " ++ reason] ++ e2) }) := by
  have hk : targetKind f.typeStr = some .timestamp := by rw [ht]; decide
  constructor
  · intro t hp e1 e2 hpre hpost
    have hx : TargetKind.timestamp.coerce rt (.string s) = some (.time t) := by
      simp [TargetKind.coerce, hp]
    exact unmarshal_around_populated rt m pre post f _ _ _ _ hs hk hv rfl hx e1 e2 hpre hpost
  · intro reason hp
    have hstep : fieldStep rt m f = .done f (some
        ("error unmarshaling Kafka message, failed to parse time field with tag "
          ++ f.tag ++ ", reason: " ++ reason)) := by
      rw [fieldStep_value rt m f _ _ hv rfl (by simp),
        setField_badTime rt f.tag f s reason hs ht hp]
    exact ⟨unmarshal_keeps rt m pre post f _ hstep,
      fun e1 e2 hpre hpost => unmarshal_around rt m pre post f f _ e1 e2 hstep hpre hpost⟩

/-- Witness of C14: the time string of `TestUnmarshalMap`, and a string that is
not a time. -/
theorem time_field_from_string_witness :
    unmarshalKafkaMessageMap exampleRuntime [("m", .string "2018-08-23T15:56:00-05:00")]
        ([] ++ sampleM :: []) =
        { fields := [] ++ { sampleM with val := .time ⟨1535057760000000000, some (-18000)⟩ } :: []
          errs := some ([] ++ []) }
    ∧ unmarshalKafkaMessageMap exampleRuntime [("m", .string "yesterday")]
        ([] ++ sampleM :: []) =
        { fields := [] ++ sampleM :: []
          errs := some ([] ++
            ["error unmarshaling Kafka message, failed to parse time field with tag "
              ++ sampleM.tag ++ ", reason: "
              ++ "parsing time yesterday: not in RFC3339 form"] ++ []) } :=
  ⟨(time_field_from_string exampleRuntime [("m", .string "2018-08-23T15:56:00-05:00")] [] []
      sampleM "2018-08-23T15:56:00-05:00" rfl rfl rfl).1
      { unixNano := 1535057760000000000, zoneOffset := some (-18000) } rfl
      [] [] rfl rfl,
    ((time_field_from_string exampleRuntime [("m", .string "yesterday")] [] []
      sampleM "yesterday" rfl rfl rfl).2 "parsing time yesterday: not in RFC3339 form"
      rfl).2 [] [] rfl rfl⟩

/-! ## Fields without annotation and fields of named types -/

/-- C15, as amended. When the message has no entry under the empty string, a
field that carries no `kafka` annotation is not modified and contributes no
error: the call leaves the field in its place untouched, and leaves everything
else, error list included, exactly as the call on the struct without that field
does. -/
theorem untagged_field_unchanged (rt : GoRuntime) (m : KafkaMessageMap)
    (pre post : List StructField) (f : StructField) (htag : f.tag = "")
    (hE : m.lookup "" = none) :
    (unmarshalKafkaMessageMap rt m (pre ++ f :: post)).fields[pre.length]? = some f
    ∧ unmarshalKafkaMessageMap rt m (pre ++ f :: post) =
        { fields := (unmarshalKafkaMessageMap rt m (pre ++ post)).fields.take pre.length
            ++ f :: (unmarshalKafkaMessageMap rt m (pre ++ post)).fields.drop pre.length
          errs := (unmarshalKafkaMessageMap rt m (pre ++ post)).errs } := by
  have hstep : fieldStep rt m f = .done f none :=
    fieldStep_absent rt m f (by rw [htag]; exact hE)
  exact ⟨unmarshal_keeps rt m pre post f none hstep, unmarshal_skip rt m pre post f hstep⟩

/-- Witness of C15 as amended: the field without annotation between two tagged
fields, in a message that binds `a` and `b`. -/
theorem untagged_field_unchanged_witness :
    (unmarshalKafkaMessageMap exampleRuntime [("a", .int32 1), ("b", .int32 2)]
      ([sampleA] ++ sampleY :: [sampleB])).fields[[sampleA].length]? = some sampleY :=
  (untagged_field_unchanged exampleRuntime [("a", .int32 1), ("b", .int32 2)] [sampleA]
    [sampleB] sampleY rfl rfl).1

/-- Counterexample to C15 as stated: in a message that has an entry under the
empty string, the settable field without annotation is modified, and the
unexported field without annotation contributes an error. -/
theorem untagged_field_mapped_from_empty_key :
    sampleY.tag = "" ∧ sampleX.tag = ""
    ∧ unmarshalKafkaMessageMap exampleRuntime [("", .int32 5)] [sampleY] =
        { fields := [{ sampleY with val := .int 5 }], errs := some [] }
    ∧ unmarshalKafkaMessageMap exampleRuntime [("", .int32 5)] [sampleX] =
        { fields := [sampleX], errs := some ["cannot set invalid field with tag "] } := by
  decide

theorem namedTypeString_has_dot (pkg name : String) :
    '.' ∈ (namedTypeString pkg name).data := by
  simp [namedTypeString, String.data_append]

/-- The type string of a named type other than `time.Time` is not the type
string of a supported type. -/
theorem targetKind_named (pkg name : String)
    (hne : namedTypeString pkg name ≠ "time.Time") :
    targetKind (namedTypeString pkg name) = none := by
  have hdot := namedTypeString_has_dot pkg name
  cases hk : targetKind (namedTypeString pkg name) with
  | none => rfl
  | some k =>
    have hmem := targetKind_supported _ k hk
    simp only [supportedTypes, List.mem_cons, List.mem_singleton, List.not_mem_nil,
      or_false] at hmem
    rcases hmem with h | h | h | h | h | h | h | h | h | h | h | h | h | h | h <;>
      first
      | exact absurd h hne
      | (rw [h] at hdot; exact absurd hdot (by decide))

/-- C16, as amended. Coercion is selected by the type string of the field, not
by its kind. A settable field whose declared type is a user-defined named type
(its type string is the package name, a dot and the type name, and is not
`time.Time`), whatever the underlying kind, and whose tag is present with a
value that is not null after unwrapping, is not populated: it keeps its value,
and its iteration records exactly one error, `unhandled Avro type <type>,
field with tag <tag> will not be set`. -/
theorem named_type_field_unhandled (rt : GoRuntime) (m : KafkaMessageMap)
    (pre post : List StructField) (f : StructField) (pkg name : String) (v u : KafkaValue)
    (hty : f.typeStr = namedTypeString pkg name) (hne : f.typeStr ≠ "time.Time")
    (hs : f.canSet = true)
    (hv : m.lookup f.tag = some v) (hu : unwrapNullable v = some u) (hnn : u ≠ .null) :
    (unmarshalKafkaMessageMap rt m (pre ++ f :: post)).fields[pre.length]? = some f
    ∧ ∀ e1 e2, (unmarshalKafkaMessageMap rt m pre).errs = some e1 →
        (unmarshalKafkaMessageMap rt m post).errs = some e2 →
        unmarshalKafkaMessageMap rt m (pre ++ f :: post) =
          { fields := (unmarshalKafkaMessageMap rt m pre).fields
              ++ f :: (unmarshalKafkaMessageMap rt m post).fields
            errs := some (e1 ++ ["unhandled Avro type " ++ f.typeStr ++ ", field with tag "
              ++ f.tag ++ " will not be set"] ++ e2) } := by
  have hk : targetKind f.typeStr = none := by
    rw [hty]
    exact targetKind_named pkg name (by rw [← hty]; exact hne)
  have hstep : fieldStep rt m f = .done f (some ("unhandled Avro type " ++ f.typeStr
      ++ ", field with tag " ++ f.tag ++ " will not be set")) := by
    rw [fieldStep_value rt m f v u hv hu hnn, setField_unsupported rt f.tag f u hs hk]
  exact ⟨unmarshal_keeps rt m pre post f _ hstep,
    fun e1 e2 hpre hpost => unmarshal_around rt m pre post f f _ e1 e2 hstep hpre hpost⟩

/-- Witness of C16 as amended: a field of `type ID int64` bound to an int64. -/
theorem named_type_field_unhandled_witness :
    unmarshalKafkaMessageMap exampleRuntime [("id", .int64 5)] ([] ++ sampleId :: []) =
      { fields := [] ++ sampleId :: []
        errs := some ([] ++ ["unhandled Avro type " ++ sampleId.typeStr ++ ", field with tag "
          ++ sampleId.tag ++ " will not be set"] ++ []) } :=
  (named_type_field_unhandled exampleRuntime [("id", .int64 5)] [] [] sampleId "core" "ID"
    (.int64 5) (.int64 5) rfl (by decide) rfl rfl rfl (by simp)).2 [] [] rfl rfl

/-- Counterexample to C16 as stated: bound to the same int64 value, the field
of the built-in type int64 is set to 5 without error, while the field of the
named type with underlying int64 keeps 0 and an error is returned. -/
theorem named_type_not_populated_like_builtin :
    unmarshalKafkaMessageMap exampleRuntime [("id", .int64 5)] [sampleE64] =
        { fields := [{ sampleE64 with val := .int 5 }], errs := some [] }
    ∧ unmarshalKafkaMessageMap exampleRuntime [("id", .int64 5)] [sampleId] =
        { fields := [sampleId]
          errs := some ["unhandled Avro type core.ID, field with tag id will not be set"] } := by
  decide

/-! ## Totality, narrow integer fields and idempotence -/

/-- C27, the code at the failing input. The message binds the tag of field `A`
to a nested map without entries: the index into the key list of that map is
out of range, the call panics and returns no error list. -/
theorem empty_nested_map_panics :
    unwrapNullable (.map []) = none
    ∧ unmarshalKafkaMessageMap exampleRuntime [("a", .map [])] [sampleA] =
        { fields := [sampleA], errs := none } :=
  ⟨rfl, by decide⟩

/-- C28. A settable signed-integer field of width `w` below 64 bits (int8,
int16 or int32) whose tag is bound to a 32-bit or 64-bit integer `v` outside
the range of the field records no error and stores `v` reduced modulo `2^w`
into the range from `-2^(w-1)` up to `2^(w-1)`, which is not `v`. -/
theorem narrow_signed_field_wraps (rt : GoRuntime) (m : KafkaMessageMap)
    (pre post : List StructField) (f : StructField) (v : KafkaValue) (i : Int) (w : Nat)
    (hs : f.canSet = true)
    (hw : (f.typeStr = "int8" ∧ w = 8) ∨ (f.typeStr = "int16" ∧ w = 16)
      ∨ (f.typeStr = "int32" ∧ w = 32))
    (hv : m.lookup f.tag = some v) (hi : v = .int32 i ∨ v = .int64 i)
    (hout : i < -(2 ^ (w - 1)) ∨ 2 ^ (w - 1) ≤ i) :
    (∀ e1 e2, (unmarshalKafkaMessageMap rt m pre).errs = some e1 →
        (unmarshalKafkaMessageMap rt m post).errs = some e2 →
        unmarshalKafkaMessageMap rt m (pre ++ f :: post) =
          { fields := (unmarshalKafkaMessageMap rt m pre).fields
              ++ { f with val := .int (wrapInt w i) }
                :: (unmarshalKafkaMessageMap rt m post).fields
            errs := some (e1 ++ e2) })
    ∧ -(2 ^ (w - 1)) ≤ wrapInt w i ∧ wrapInt w i < 2 ^ (w - 1)
    ∧ (2 : Int) ^ w ∣ wrapInt w i - i
    ∧ wrapInt w i ≠ i := by
  have hbits : intBits f.typeStr = w ∧ 1 ≤ w
      ∧ f.typeStr ∈ ["int", "int8", "int16", "int32", "int64"] := by
    rcases hw with ⟨h, rfl⟩ | ⟨h, rfl⟩ | ⟨h, rfl⟩ <;> (rw [h]; decide)
  obtain ⟨hb, hw1, ht⟩ := hbits
  have hu : unwrapNullable v = some v := by rcases hi with rfl | rfl <;> rfl
  have hnn : v ≠ .null := by rcases hi with rfl | rfl <;> simp
  have hstep : fieldStep rt m f = .done { f with val := .int (wrapInt w i) } none := by
    rw [fieldStep_value rt m f v v hv hu hnn, setField_signed rt f.tag f v i hs ht hi, hb]
  have hr := wrapInt_range w hw1 i
  refine ⟨fun e1 e2 hpre hpost => ?_, hr.1, hr.2, wrapInt_congr w i, fun heq => ?_⟩
  · have h := unmarshal_around rt m pre post f _ none e1 e2 hstep hpre hpost
    simpa using h
  · have hin := (wrapInt_eq_self_iff w hw1 i).1 heq
    omega

/-- Witness of C28: int32 300 into an int8 field stores 44. -/
theorem narrow_signed_field_wraps_witness :
    unmarshalKafkaMessageMap exampleRuntime [("e", .int32 300)] ([] ++ sampleE :: []) =
      { fields := [] ++ { sampleE with val := .int (wrapInt 8 300) } :: []
        errs := some ([] ++ []) }
    ∧ wrapInt 8 300 = 44 :=
  ⟨(narrow_signed_field_wraps exampleRuntime [("e", .int32 300)] [] [] sampleE (.int32 300)
    300 8 rfl (Or.inl ⟨rfl, rfl⟩) rfl (Or.inl rfl) (Or.inr (by decide))).1 [] [] rfl rfl,
    by decide⟩

theorem setField_tag (rt : GoRuntime) (tag : String) (f : StructField) (u : KafkaValue) :
    (setField rt tag f u).1.tag = f.tag := by
  cases hs : f.canSet with
  | false => rw [setField_unsettable rt tag f u hs]
  | true =>
    cases hk : targetKind f.typeStr with
    | none => rw [setField_unsupported rt tag f u hs hk]
    | some k =>
      cases hx : k.coerce rt u with
      | some x => rw [setField_coerce rt tag f u k x hs hk hx]
      | none =>
        cases hr : k.acceptsRepr u with
        | false => rw [setField_rejected rt tag f u k hs hk hr]
        | true =>
          cases k <;> cases u <;>
            simp [TargetKind.acceptsRepr, TargetKind.coerce] at hr hx
          rename_i s
          cases hp : rt.timeParseRFC3339 s with
          | ok t => simp [hp] at hx
          | error e => rw [setField_badTime rt tag f s e hs (targetKind_timestamp _ hk) hp]

/-- The switch gives the same field and the same error on the field it has
just set. -/
theorem setField_idem (rt : GoRuntime) (tag : String) (f : StructField) (u : KafkaValue) :
    setField rt tag (setField rt tag f u).1 u = setField rt tag f u := by
  cases hs : f.canSet with
  | false => rw [setField_unsettable rt tag f u hs, setField_unsettable rt tag f u hs]
  | true =>
    cases hk : targetKind f.typeStr with
    | none => rw [setField_unsupported rt tag f u hs hk, setField_unsupported rt tag f u hs hk]
    | some k =>
      cases hx : k.coerce rt u with
      | some x =>
        rw [setField_coerce rt tag f u k x hs hk hx]
        exact setField_coerce rt tag { f with val := x } u k x hs hk hx
      | none =>
        cases hr : k.acceptsRepr u with
        | false =>
          rw [setField_rejected rt tag f u k hs hk hr, setField_rejected rt tag f u k hs hk hr]
        | true =>
          cases k <;> cases u <;>
            simp [TargetKind.acceptsRepr, TargetKind.coerce] at hr hx
          rename_i s
          cases hp : rt.timeParseRFC3339 s with
          | ok t => simp [hp] at hx
          | error e =>
            have ht := targetKind_timestamp _ hk
            rw [setField_badTime rt tag f s e hs ht hp, setField_badTime rt tag f s e hs ht hp]

/-- An iteration that ended gives the same outcome on the field it left. -/
theorem fieldStep_idem (rt : GoRuntime) (m : KafkaMessageMap) (f g : StructField)
    (e : Option String) (h : fieldStep rt m f = .done g e) :
    fieldStep rt m g = .done g e := by
  cases hv : m.lookup f.tag with
  | none =>
    rw [fieldStep_absent rt m f hv] at h
    cases h
    exact fieldStep_absent rt m f hv
  | some v =>
    cases hu : unwrapNullable v with
    | none =>
      rw [fieldStep_panic rt m f v hv hu] at h
      cases h
    | some u =>
      by_cases hnn : u = .null
      · subst hnn
        rw [fieldStep_null rt m f v hv hu] at h
        cases h
        exact fieldStep_null rt m f v hv hu
      · rw [fieldStep_value rt m f v u hv hu hnn] at h
        cases h
        have htag := setField_tag rt f.tag f u
        rw [fieldStep_value rt m _ v u (by rw [htag]; exact hv) hu hnn, htag,
          setField_idem]

/-- Handed the same listing of the message, the call gives on the target it
has left the outcome it gave before. -/
theorem unmarshal_idem_same_listing (rt : GoRuntime) (m : KafkaMessageMap)
    (target : List StructField) :
    unmarshalKafkaMessageMap rt m (unmarshalKafkaMessageMap rt m target).fields
      = unmarshalKafkaMessageMap rt m target := by
  induction target with
  | nil => simp [unmarshal_nil]
  | cons f rest ih =>
    rw [unmarshal_cons rt m f rest]
    cases hstep : fieldStep rt m f with
    | panicked =>
      simp only
      rw [unmarshal_cons, hstep]
    | done g e =>
      simp only
      rw [unmarshal_cons, fieldStep_idem rt m f g e hstep]
      simp only
      rw [ih]

/-! ## Two calls on one message -/

theorem sameMessage_refl (m : KafkaMessageMap) : SameMessage m m := by
  intro key
  cases m.lookup key with
  | none => trivial
  | some v => exact Relisted.same v

/-- A value that is not a nested map has one listing. -/
theorem relisted_scalar (v1 v2 : KafkaValue) (h : Relisted v1 v2)
    (hv : v1.isNestedMap = false) : v2 = v1 := by
  cases h with
  | same => rfl
  | map e1 e3 e2 hperm hent => simp [KafkaValue.isNestedMap] at hv

/-- A nested map with one entry is listed as a nested map with one entry, under
the same key. -/
theorem relisted_single (k : String) (x1 v2 : KafkaValue)
    (h : Relisted (.map [(k, x1)]) v2) :
    ∃ x2, v2 = .map [(k, x2)] ∧ Relisted x1 x2 := by
  cases h with
  | same => exact ⟨x1, rfl, Relisted.same x1⟩
  | map e1 e3 e2 hperm hent =>
    have h3 : e3 = [(k, x1)] := List.perm_singleton.1 hperm.symm
    subst h3
    cases hent with
    | cons k v1 v2 r1 r2 hv hr =>
      cases hr
      exact ⟨v2, rfl, hv⟩

/-- A nested map without entries has one listing. -/
theorem relisted_empty (v2 : KafkaValue) (h : Relisted (.map []) v2) : v2 = .map [] := by
  cases h with
  | same => rfl
  | map e1 e3 e2 hperm hent =>
    have h3 : e3 = [] := List.perm_nil.1 hperm.symm
    subst h3
    cases hent
    rfl

/-- The switch does not look into a nested map. -/
theorem setField_nested_map (rt : GoRuntime) (tag : String) (f : StructField)
    (e1 e2 : List (String × KafkaValue)) :
    setField rt tag f (.map e2) = setField rt tag f (.map e1) := by
  cases hs : f.canSet with
  | false => rw [setField_unsettable rt tag f _ hs, setField_unsettable rt tag f _ hs]
  | true =>
    cases hk : targetKind f.typeStr with
    | none => rw [setField_unsupported rt tag f _ hs hk, setField_unsupported rt tag f _ hs hk]
    | some k =>
      have hr : ∀ e, k.acceptsRepr (.map e) = false := by
        intro e
        cases k <;> rfl
      rw [setField_rejected rt tag f _ k hs hk (hr e1),
        setField_rejected rt tag f _ k hs hk (hr e2)]

/-- The switch gives the same field and error on two listings of a value. -/
theorem setField_relisted (rt : GoRuntime) (tag : String) (f : StructField)
    (u1 u2 : KafkaValue) (h : Relisted u1 u2) :
    setField rt tag f u2 = setField rt tag f u1 := by
  cases h with
  | same => rfl
  | map e1 e3 e2 hperm hent => exact setField_nested_map rt tag f e1 e2

/-- An iteration gives the same outcome on two listings of the message, when
the nested map under the key of the field, if any, has at most one entry. -/
theorem fieldStep_relisted (rt : GoRuntime) (m1 m2 : KafkaMessageMap) (f : StructField)
    (hsame : SameMessage m1 m2)
    (hone : ∀ es, m1.lookup f.tag = some (.map es) → es.length ≤ 1) :
    fieldStep rt m2 f = fieldStep rt m1 f := by
  cases hv1 : m1.lookup f.tag with
  | none =>
    cases hv2 : m2.lookup f.tag with
    | none => rw [fieldStep_absent rt m1 f hv1, fieldStep_absent rt m2 f hv2]
    | some v2 =>
      have hk := hsame f.tag
      rw [hv1, hv2] at hk
      exact hk.elim
  | some v1 =>
    cases hv2 : m2.lookup f.tag with
    | none =>
      have hk := hsame f.tag
      rw [hv1, hv2] at hk
      exact hk.elim
    | some v2 =>
      have hk := hsame f.tag
      rw [hv1, hv2] at hk
      have hrel : Relisted v1 v2 := hk
      have hunw : (unwrapNullable v1 = none ∧ unwrapNullable v2 = none)
          ∨ ∃ u1 u2, unwrapNullable v1 = some u1 ∧ unwrapNullable v2 = some u2
            ∧ Relisted u1 u2 := by
        cases hm : v1.isNestedMap with
        | false =>
          have h2 := relisted_scalar v1 v2 hrel hm
          subst h2
          exact Or.inr ⟨v2, v2, unwrapNullable_scalar v2 hm, unwrapNullable_scalar v2 hm,
            Relisted.same v2⟩
        | true =>
          cases v1 with
          | map es =>
            have hlen := hone es hv1
            match es, hlen, hrel with
            | [], _, hrel =>
              have h2 := relisted_empty v2 hrel
              subst h2
              exact Or.inl ⟨(unwrapNullable_none_iff _).2 rfl, (unwrapNullable_none_iff _).2 rfl⟩
            | [(k, x1)], _, hrel =>
              obtain ⟨x2, h2, hx⟩ := relisted_single k x1 v2 hrel
              subst h2
              exact Or.inr
                ⟨x1, x2, unwrapNullable_single k x1, unwrapNullable_single k x2, hx⟩
            | _ :: _ :: _, hlen, _ => simp at hlen
          | _ => simp [KafkaValue.isNestedMap] at hm
      rcases hunw with ⟨h1, h2⟩ | ⟨u1, u2, h1, h2, hu⟩
      · rw [fieldStep_panic rt m1 f v1 hv1 h1, fieldStep_panic rt m2 f v2 hv2 h2]
      · by_cases hnn : u1 = .null
        · subst hnn
          have hn2 : u2 = .null := relisted_scalar _ _ hu rfl
          subst hn2
          rw [fieldStep_null rt m1 f v1 hv1 h1, fieldStep_null rt m2 f v2 hv2 h2]
        · have hnn2 : u2 ≠ .null := by
            intro h
            subst h
            cases hu
            exact hnn rfl
          rw [fieldStep_value rt m1 f v1 u1 hv1 h1 hnn,
            fieldStep_value rt m2 f v2 u2 hv2 h2 hnn2, setField_relisted rt f.tag f u1 u2 hu]

/-- An iteration leaves the tag of the field as it is. -/
theorem fieldAfter_tag (rt : GoRuntime) (m : KafkaMessageMap) (f : StructField) :
    (fieldAfter rt m f).tag = f.tag := by
  cases hv : m.lookup f.tag with
  | none => simp only [fieldAfter, fieldStep_absent rt m f hv]
  | some v =>
    cases hu : unwrapNullable v with
    | none => simp only [fieldAfter, fieldStep_panic rt m f v hv hu]
    | some u =>
      by_cases hnn : u = .null
      · subst hnn
        simp only [fieldAfter, fieldStep_null rt m f v hv hu]
      · simp only [fieldAfter, fieldStep_value rt m f v u hv hu hnn]
        exact setField_tag rt f.tag f u

/-- The call leaves the tags of the fields as they are. -/
theorem unmarshal_fields_tag (rt : GoRuntime) (m : KafkaMessageMap)
    (target : List StructField) :
    ∀ g ∈ (unmarshalKafkaMessageMap rt m target).fields, ∃ f ∈ target, g.tag = f.tag := by
  induction target with
  | nil => simp [unmarshal_nil]
  | cons f rest ih =>
    intro g hg
    rw [unmarshal_cons rt m f rest] at hg
    cases hstep : fieldStep rt m f with
    | panicked =>
      rw [hstep] at hg
      exact ⟨g, hg, rfl⟩
    | done g1 e =>
      rw [hstep] at hg
      simp only [List.mem_cons] at hg
      rcases hg with rfl | hg
      · refine ⟨f, List.mem_cons_self f rest, ?_⟩
        have ht := fieldAfter_tag rt m f
        simp only [fieldAfter, hstep] at ht
        exact ht
      · obtain ⟨f1, hf1, ht⟩ := ih g hg
        exact ⟨f1, List.mem_cons_of_mem f hf1, ht⟩

/-- C29 fails as stated. The message `{"a": {"int": 1, "long": 2}}` is listed
once with `int` first and once with `long` first. The first application, on the
first listing, sets field `A int` to 1 without an error; the second
application, on the second listing of the same message, changes the field of
the resulting target to 2. -/
theorem relisted_union_second_call_changes_target :
    SameMessage sampleUnionIntFirst sampleUnionLongFirst
    ∧ unmarshalKafkaMessageMap exampleRuntime sampleUnionIntFirst [sampleA]
        = { fields := [{ sampleA with val := .int 1 }], errs := some [] }
    ∧ unmarshalKafkaMessageMap exampleRuntime sampleUnionLongFirst
          (unmarshalKafkaMessageMap exampleRuntime sampleUnionIntFirst [sampleA]).fields
        = { fields := [{ sampleA with val := .int 2 }], errs := some [] }
    ∧ (unmarshalKafkaMessageMap exampleRuntime sampleUnionLongFirst
          (unmarshalKafkaMessageMap exampleRuntime sampleUnionIntFirst [sampleA]).fields).fields
        ≠ (unmarshalKafkaMessageMap exampleRuntime sampleUnionIntFirst [sampleA]).fields := by
  refine ⟨?_, rfl, rfl, by decide⟩
  intro key
  by_cases h : key = "a"
  · subst h
    exact Relisted.map _ [("long", .int64 2), ("int", .int32 1)] _
      (List.Perm.swap _ _ _)
      (RelistedEntries.cons _ _ _ _ _ (Relisted.same _)
        (RelistedEntries.cons _ _ _ _ _ (Relisted.same _) RelistedEntries.nil))
  · have hb : (key == "a") = false := beq_eq_false_iff_ne.2 h
    simp [sampleUnionIntFirst, sampleUnionLongFirst, List.lookup, hb]

/-- C29, as amended. When no nested map bound to the key of a field of the
target has two or more entries, a second application, on any listing of the
same message and on the target the first one left, leaves that target
unchanged and gives the outcome of the first, which is the same error list;
the first application returns an error list when none of these nested maps is
empty. -/
theorem relisted_call_idempotent (rt : GoRuntime) (m1 m2 : KafkaMessageMap)
    (target : List StructField)
    (hsame : SameMessage m1 m2)
    (hone : ∀ f ∈ target, ∀ es, m1.lookup f.tag = some (.map es) → es.length ≤ 1) :
    unmarshalKafkaMessageMap rt m2 (unmarshalKafkaMessageMap rt m1 target).fields
        = unmarshalKafkaMessageMap rt m1 target
    ∧ ((∀ f ∈ target, m1.lookup f.tag ≠ some (.map [])) →
        (unmarshalKafkaMessageMap rt m1 target).errs.isSome = true) := by
  constructor
  · have hcongr :
        unmarshalKafkaMessageMap rt m2 (unmarshalKafkaMessageMap rt m1 target).fields
          = unmarshalKafkaMessageMap rt m1 (unmarshalKafkaMessageMap rt m1 target).fields := by
      apply unmarshal_congr
      intro g hg
      obtain ⟨f, hf, ht⟩ := unmarshal_fields_tag rt m1 target g hg
      apply fieldStep_relisted rt m1 m2 g hsame
      intro es hes
      rw [ht] at hes
      exact hone f hf es hes
    rw [hcongr]
    exact unmarshal_idem_same_listing rt m1 target
  · intro hne
    rw [unmarshal_returns_iff]
    intro f hf
    cases hp : fieldPanics rt m1 f with
    | false => rfl
    | true => exact absurd ((fieldPanics_iff rt m1 f).1 hp) (hne f hf)

theorem relisted_call_idempotent_witness :
    SameMessage [("a", .map [("int", .int32 5)]), ("b", .int32 3)]
        [("b", .int32 3), ("a", .map [("int", .int32 5)])]
    ∧ (∀ f ∈ [sampleA, sampleB], ∀ es,
        List.lookup f.tag [("a", KafkaValue.map [("int", .int32 5)]), ("b", .int32 3)]
          = some (.map es) → es.length ≤ 1)
    ∧ unmarshalKafkaMessageMap exampleRuntime
          [("b", .int32 3), ("a", .map [("int", .int32 5)])]
          (unmarshalKafkaMessageMap exampleRuntime
            [("a", .map [("int", .int32 5)]), ("b", .int32 3)] [sampleA, sampleB]).fields
        = unmarshalKafkaMessageMap exampleRuntime
            [("a", .map [("int", .int32 5)]), ("b", .int32 3)] [sampleA, sampleB]
    ∧ ((∀ f ∈ [sampleA, sampleB],
          List.lookup f.tag [("a", KafkaValue.map [("int", .int32 5)]), ("b", .int32 3)]
            ≠ some (.map [])) →
        (unmarshalKafkaMessageMap exampleRuntime
          [("a", .map [("int", .int32 5)]), ("b", .int32 3)] [sampleA, sampleB]).errs.isSome
          = true) :=
  have hsame : SameMessage [("a", .map [("int", .int32 5)]), ("b", .int32 3)]
      [("b", .int32 3), ("a", .map [("int", .int32 5)])] := by
    intro key
    by_cases ha : key = "a"
    · subst ha
      exact Relisted.same _
    · by_cases hb : key = "b"
      · subst hb
        exact Relisted.same _
      · have ha2 : (key == "a") = false := beq_eq_false_iff_ne.2 ha
        have hb2 : (key == "b") = false := beq_eq_false_iff_ne.2 hb
        simp [List.lookup, ha2, hb2]
  ⟨hsame,
    by simp [sampleA, sampleB, List.lookup],
    relisted_call_idempotent exampleRuntime
      [("a", .map [("int", .int32 5)]), ("b", .int32 3)]
      [("b", .int32 3), ("a", .map [("int", .int32 5)])] [sampleA, sampleB]
      hsame (by simp [sampleA, sampleB, List.lookup])⟩

end KafkaUtils

namespace Tools

/-! ## GetEnvVal -/

/-- C17, the code at the failing input, along the steps of `TestGetEnvVal`.
With the variable not set the default is returned, and after the variable is
set to `NOT_FAKED` that value is returned. After the variable is set to the
empty string the code returns the default `FAKE`, where the test expects the
empty string. -/
theorem GetEnvVal_empty_value_gives_default :
    GetEnvVal [] "key" "FAKE" = "FAKE"
    ∧ GetEnvVal (osSetenv [] "key" "NOT_FAKED") "key" "FAKE" = "NOT_FAKED"
    ∧ List.lookup "key" (osSetenv (osSetenv [] "key" "NOT_FAKED") "key" "") = some ""
    ∧ GetEnvVal (osSetenv (osSetenv [] "key" "NOT_FAKED") "key" "") "key" "FAKE" = "FAKE" := by
  decide

/-- C18. For a key that is not set in the environment `GetEnvVal` returns the
default, and for a key set to a value that is not empty it returns that value,
whatever the default is. -/
theorem GetEnvVal_unset_or_nonempty (env : Environ) (key defaultVal : String) :
    (env.lookup key = none → GetEnvVal env key defaultVal = defaultVal)
    ∧ (∀ v, env.lookup key = some v → v ≠ "" → GetEnvVal env key defaultVal = v) := by
  constructor
  · intro h
    simp [GetEnvVal, osGetenv, h]
  · intro v h hv
    simp [GetEnvVal, osGetenv, h, hv]

/-- Witness of C18: the first two steps of `TestGetEnvVal`. -/
theorem GetEnvVal_unset_or_nonempty_witness :
    GetEnvVal [] "key" "FAKE" = "FAKE"
    ∧ GetEnvVal [("key", "NOT_FAKED")] "key" "FAKE" = "NOT_FAKED" :=
  ⟨(GetEnvVal_unset_or_nonempty [] "key" "FAKE").1 rfl,
    (GetEnvVal_unset_or_nonempty [("key", "NOT_FAKED")] "key" "FAKE").2 "NOT_FAKED" rfl
      (by decide)⟩

/-! ## The hook of CobraBindEnvironmentVariables -/

theorem flagSetSet_keeps (env : CliEnv) (flags : List Flag) (name value : String)
    (hfirst : ∀ h, flags.find? (fun f => f.name = name) = some h → h.changed = false)
    (i : Nat) (g : Flag) (hg : flags[i]? = some g) (hc : g.changed = true) :
    (flagSetSet env flags name value)[i]? = some g := by
  induction flags generalizing i with
  | nil => simp at hg
  | cons f rest ih =>
    unfold flagSetSet
    by_cases hn : f.name = name
    · have hf : f.changed = false := hfirst f (by simp [List.find?_cons, hn])
      cases i with
      | zero =>
        simp only [List.getElem?_cons_zero, Option.some.injEq] at hg
        subst hg
        rw [hf] at hc
        exact absurd hc (by simp)
      | succ j =>
        simp only [List.getElem?_cons_succ] at hg
        simp only [if_pos hn]
        cases env.valueSet f value <;> simpa using hg
    · simp only [if_neg hn]
      cases i with
      | zero => simpa using hg
      | succ j =>
        simp only [List.getElem?_cons_succ] at hg ⊢
        exact ih (fun h hh => hfirst h (by simpa [List.find?_cons, hn] using hh)) j hg

theorem bindFlag_keeps (env : CliEnv) (flags : List Flag) (name : String)
    (i : Nat) (g : Flag) (hg : flags[i]? = some g) (hc : g.changed = true) :
    (bindFlag env flags name)[i]? = some g := by
  unfold bindFlag
  cases hfind : flags.find? (fun f => f.name = name) with
  | none => exact hg
  | some f =>
    have hname : f.name = name := by
      have := List.find?_some hfind
      simpa using this
    cases hch : f.changed with
    | true => simpa [hch] using hg
    | false =>
      simp only [hch, Bool.not_false, if_true]
      split_ifs
      · rw [hname]
        exact flagSetSet_keeps env flags name _
          (fun h hh => by rw [hfind] at hh; cases hh; exact hch) i g hg hc
      · exact hg

theorem foldl_bindFlag_keeps (env : CliEnv) (names : List String) (flags : List Flag)
    (i : Nat) (g : Flag) (hg : flags[i]? = some g) (hc : g.changed = true) :
    (names.foldl (bindFlag env) flags)[i]? = some g := by
  induction names generalizing flags with
  | nil => exact hg
  | cons n rest ih =>
    simp only [List.foldl_cons]
    exact ih (bindFlag env flags n) (bindFlag_keeps env flags n i g hg hc)

/-- C19. Command line arguments take precedence over environment variables:
whatever viper finds in the environment, a flag whose `Changed` mark is true is
in the same place, with the same value and mark, after the hook. Hence a flag
that the hook altered was not set on the command line. -/
theorem changed_flags_keep_value (env : CliEnv) (flags : List Flag) :
    (∀ (i : Nat) (f : Flag), flags[i]? = some f → f.changed = true →
      (CobraBindEnvironmentVariables env flags)[i]? = some f)
    ∧ (∀ (i : Nat) (f g : Flag), flags[i]? = some f →
      (CobraBindEnvironmentVariables env flags)[i]? = some g → g ≠ f → f.changed = false) := by
  have h1 : ∀ (i : Nat) (f : Flag), flags[i]? = some f → f.changed = true →
      (CobraBindEnvironmentVariables env flags)[i]? = some f :=
    fun i f hf hc => foldl_bindFlag_keeps env _ flags i f hf hc
  refine ⟨h1, fun i f g hf hg hne => ?_⟩
  by_contra hc
  have hc2 : f.changed = true := by simpa using hc
  rw [h1 i f hf hc2] at hg
  exact hne (Option.some.inj hg).symm

/-- Witness of C19: `address` was given on the command line and keeps its
value; `kafka-broker` was not and takes the value of the environment. -/
theorem changed_flags_keep_value_witness :
    (CobraBindEnvironmentVariables sampleCliEnv sampleFlags)[0]?
      = some { name := "address", changed := true, value := "0.0.0.0" }
    ∧ CobraBindEnvironmentVariables sampleCliEnv sampleFlags =
      [{ name := "address", changed := true, value := "0.0.0.0" },
        { name := "kafka-broker", changed := true, value := "broker:9092" },
        { name := "port", changed := false, value := "8080" }] :=
  ⟨(changed_flags_keep_value sampleCliEnv sampleFlags).1 0
    { name := "address", changed := true, value := "0.0.0.0" } rfl rfl, by decide⟩

end Tools

namespace SchemaRegistry

/-! ## The envelope of the Avro decoder -/

/-- C20. For a payload of at least 5 bytes, `b0` to `b4` followed by `rest`,
the decoder resolves the schema whose ID is the big-endian number of bytes 1 to
4, a number below `2^32`, and byte 0 has no influence. When the cache holds the
ID, no request is made and `rest` is decoded with the cached definition. When
it does not and the registry returns a definition, that ID is requested, the
definition is cached under it, and `rest` is decoded with it. -/
theorem envelope_schema_id (c : Collaborators) (cache : SchemaCache)
    (b0 b1 b2 b3 b4 : Nat) (rest : List Nat) :
    schemaID (b0 :: b1 :: b2 :: b3 :: b4 :: rest)
      = some (b1 * 2 ^ 24 + b2 * 2 ^ 16 + b3 * 2 ^ 8 + b4)
    ∧ (b1 < 256 → b2 < 256 → b3 < 256 → b4 < 256 →
        b1 * 2 ^ 24 + b2 * 2 ^ 16 + b3 * 2 ^ 8 + b4 < 2 ^ 32)
    ∧ (∀ b0', unmarshalMessage c cache (b0' :: b1 :: b2 :: b3 :: b4 :: rest)
        = unmarshalMessage c cache (b0 :: b1 :: b2 :: b3 :: b4 :: rest))
    ∧ (∀ schema, cache.lookup (b1 * 2 ^ 24 + b2 * 2 ^ 16 + b3 * 2 ^ 8 + b4) = some schema →
        (unmarshalMessage c cache (b0 :: b1 :: b2 :: b3 :: b4 :: rest)).requested = none
        ∧ (unmarshalMessage c cache (b0 :: b1 :: b2 :: b3 :: b4 :: rest)).cache = cache
        ∧ (unmarshalMessage c cache (b0 :: b1 :: b2 :: b3 :: b4 :: rest)).decoded
            = some (schema, rest))
    ∧ (∀ schema, cache.lookup (b1 * 2 ^ 24 + b2 * 2 ^ 16 + b3 * 2 ^ 8 + b4) = none →
        c.getSchema (b1 * 2 ^ 24 + b2 * 2 ^ 16 + b3 * 2 ^ 8 + b4) = .ok schema →
        (unmarshalMessage c cache (b0 :: b1 :: b2 :: b3 :: b4 :: rest)).requested
            = some (b1 * 2 ^ 24 + b2 * 2 ^ 16 + b3 * 2 ^ 8 + b4)
        ∧ (unmarshalMessage c cache (b0 :: b1 :: b2 :: b3 :: b4 :: rest)).cache.lookup
            (b1 * 2 ^ 24 + b2 * 2 ^ 16 + b3 * 2 ^ 8 + b4) = some schema
        ∧ (unmarshalMessage c cache (b0 :: b1 :: b2 :: b3 :: b4 :: rest)).decoded
            = some (schema, rest)) := by
  refine ⟨rfl, ?_, fun _ => rfl, ?_, ?_⟩
  · intro h1 h2 h3 h4
    omega
  · intro schema hhit
    simp only [unmarshalMessage, schemaID, hhit, decodeAndMap, List.drop_succ_cons,
      List.drop_zero]
    cases c.decodeBinary schema rest <;> simp
  · intro schema hmiss hfetch
    simp only [unmarshalMessage, schemaID, hmiss, hfetch, decodeAndMap, List.drop_succ_cons,
      List.drop_zero]
    cases c.decodeBinary schema rest <;> simp [List.lookup]

/-- Witness of C20: the payload of `setupMockSchemaRegistry`, which starts with
0, 0, 0, 0, 77, on an empty cache: schema 77 is requested and cached. -/
theorem envelope_schema_id_witness :
    (unmarshalMessage sampleCollaborators [] [0, 0, 0, 0, 77, 18, 71, 117, 121]).requested
      = some (0 * 2 ^ 24 + 0 * 2 ^ 16 + 0 * 2 ^ 8 + 77)
    ∧ (unmarshalMessage sampleCollaborators [] [0, 0, 0, 0, 77, 18, 71, 117, 121]).cache.lookup
        (0 * 2 ^ 24 + 0 * 2 ^ 16 + 0 * 2 ^ 8 + 77) = some "test"
    ∧ (unmarshalMessage sampleCollaborators [] [0, 0, 0, 0, 77, 18, 71, 117, 121]).decoded
        = some ("test", [18, 71, 117, 121])
    ∧ 0 * 2 ^ 24 + 0 * 2 ^ 16 + 0 * 2 ^ 8 + 77 = 77 :=
  ⟨((envelope_schema_id sampleCollaborators [] 0 0 0 0 77 [18, 71, 117, 121]).2.2.2.2
      "test" rfl rfl).1,
    ((envelope_schema_id sampleCollaborators [] 0 0 0 0 77 [18, 71, 117, 121]).2.2.2.2
      "test" rfl rfl).2.1,
    ((envelope_schema_id sampleCollaborators [] 0 0 0 0 77 [18, 71, 117, 121]).2.2.2.2
      "test" rfl rfl).2.2, by decide⟩

/-! ## Fetch failures and the cache -/

/-- C21. When the schema ID of a payload is not in the cache and the registry
fetch for it fails, the decoder returns exactly one error, which carries the
fetch error, gives nothing to the binary decoder or to the field mapper, and
leaves the cache as it was, without an entry for that ID. -/
theorem fetch_failure_one_error (c : Collaborators) (cache : SchemaCache)
    (payload : List Nat) (id : Nat) (reason : String)
    (hid : schemaID payload = some id) (hmiss : cache.lookup id = none)
    (hfetch : c.getSchema id = .error reason) :
    (unmarshalMessage c cache payload).errs = [.schemaFetch reason]
    ∧ (unmarshalMessage c cache payload).requested = some id
    ∧ (unmarshalMessage c cache payload).decoded = none
    ∧ (unmarshalMessage c cache payload).mapped = none
    ∧ (unmarshalMessage c cache payload).cache = cache
    ∧ (unmarshalMessage c cache payload).cache.lookup id = none := by
  simp [unmarshalMessage, hid, hmiss, hfetch]

/-- Witness of C21: the payload and the failing registry of
`TestUnmarshalMessage_InvalidSchema`. -/
theorem fetch_failure_one_error_witness :
    (unmarshalMessage failingRegistry [] [0, 0, 0, 0, 77, 18, 71, 117, 121]).errs
      = [.schemaFetch "some error"]
    ∧ (unmarshalMessage failingRegistry [] [0, 0, 0, 0, 77, 18, 71, 117, 121]).cache.lookup 77
      = none :=
  ⟨(fetch_failure_one_error failingRegistry [] [0, 0, 0, 0, 77, 18, 71, 117, 121] 77
      "some error" rfl rfl rfl).1,
    (fetch_failure_one_error failingRegistry [] [0, 0, 0, 0, 77, 18, 71, 117, 121] 77
      "some error" rfl rfl rfl).2.2.2.2.2⟩

/-- C22. After a successful registry fetch for schema ID `n` the cache maps `n`
to the fetched definition, whatever decoding and field mapping of the same
message then give. When the payload decodes, the field map goes to the mapper
and the errors of the mapper are what the caller gets. -/
theorem cache_write_independent_of_mapping (c : Collaborators) (cache : SchemaCache)
    (payload : List Nat) (n : Nat) (schema : String)
    (hid : schemaID payload = some n) (hmiss : cache.lookup n = none)
    (hfetch : c.getSchema n = .ok schema) :
    (unmarshalMessage c cache payload).cache.lookup n = some schema
    ∧ (unmarshalMessage c cache payload).cache = (n, schema) :: cache
    ∧ (∀ fieldMap, c.decodeBinary schema (payload.drop 5) = .ok fieldMap →
        (unmarshalMessage c cache payload).mapped = some fieldMap
        ∧ (unmarshalMessage c cache payload).errs
            = (c.populate fieldMap).map DecodeError.fieldMapping) := by
  simp only [unmarshalMessage, hid, hmiss, hfetch, decodeAndMap]
  cases c.decodeBinary schema (payload.drop 5) <;> simp [List.lookup]

/-- Witness of C22: the payload and the mocks of
`TestUnmarshalMessage_InvalidAvro`: the mapper reports an error, the error is
returned and schema 77 is cached. -/
theorem cache_write_independent_of_mapping_witness :
    (unmarshalMessage failingMapper [] [0, 0, 0, 0, 77, 18, 71, 117, 121]).cache.lookup 77
      = some "test"
    ∧ (unmarshalMessage failingMapper [] [0, 0, 0, 0, 77, 18, 71, 117, 121]).errs
      = (failingMapper.populate [("name", .string "Guy Fieri")]).map DecodeError.fieldMapping
    ∧ (failingMapper.populate [("name", .string "Guy Fieri")]).map DecodeError.fieldMapping
      = [.fieldMapping "some error"] :=
  ⟨(cache_write_independent_of_mapping failingMapper [] [0, 0, 0, 0, 77, 18, 71, 117, 121]
      77 "test" rfl rfl rfl).1,
    ((cache_write_independent_of_mapping failingMapper [] [0, 0, 0, 0, 77, 18, 71, 117, 121]
      77 "test" rfl rfl rfl).2.2 [("name", .string "Guy Fieri")] rfl).2,
    by decide⟩

end SchemaRegistry

namespace JsonDecoder

/-! ## The JSON decoder -/

/-- C23. For a payload that does not parse as a single JSON object the decoder
returns exactly one error and gives nothing to the field mapper; for a payload
that parses it gives the parsed map to the mapper and returns exactly the error
list of the mapper on that map. -/
theorem json_parse_failure_or_mapper_errors (c : Collaborators) (payload : List Nat) :
    (∀ reason, c.parseObject payload = .error reason →
      (UnmarshalMessage c payload).errs = [reason]
      ∧ (UnmarshalMessage c payload).errs.length = 1
      ∧ (UnmarshalMessage c payload).mapped = none)
    ∧ (∀ fieldMap, c.parseObject payload = .ok fieldMap →
      (UnmarshalMessage c payload).errs = c.populate fieldMap
      ∧ (UnmarshalMessage c payload).mapped = some fieldMap) := by
  constructor
  · intro reason h
    simp [UnmarshalMessage, h]
  · intro fieldMap h
    simp [UnmarshalMessage, h]

/-- Witness of C23: a payload with two closing braces too many, as in
`TestUnmarshalJsonMessage_InvalidJson`, and a payload that is one object, as in
`TestUnmarshalJsonMessage_ErrorUnmarshaling`. -/
theorem json_parse_failure_or_mapper_errors_witness :
    (UnmarshalMessage sampleCollaborators [123, 34, 97, 34, 58, 49, 125, 125, 125]).errs
      = ["invalid character after top-level value"]
    ∧ (UnmarshalMessage sampleCollaborators [123, 34, 97, 34, 58, 49, 125]).errs
      = sampleCollaborators.populate [("where_to_go", .string "flavortown")] :=
  ⟨((json_parse_failure_or_mapper_errors sampleCollaborators
      [123, 34, 97, 34, 58, 49, 125, 125, 125]).1
      "invalid character after top-level value" rfl).1,
    ((json_parse_failure_or_mapper_errors sampleCollaborators
      [123, 34, 97, 34, 58, 49, 125]).2 [("where_to_go", .string "flavortown")] rfl).1⟩

end JsonDecoder

namespace Consumer

/-! ## The partition worker and the topic consumer -/

/-- What every turn of the loop preserves holds when the loop stops. -/
theorem run_invariant (w : Worker) (P : WorkerState → Prop)
    (hstep : ∀ s e, P s → P (w.step s e)) (s : WorkerState) (events : List Event)
    (h : P s) : P (w.run s events) := by
  induction events generalizing s with
  | nil => exact h
  | cons e rest ih =>
    unfold Worker.run
    split_ifs
    · exact h
    · exact ih _ (hstep s e h)

theorem run_draining (w : Worker) (s : WorkerState) (events : List Event)
    (h : s.draining = true) : w.run s events = s := by
  cases events with
  | nil => rfl
  | cons e rest => simp [Worker.run, h]

theorem run_filter_messages (w : Worker) (s : WorkerState) (events : List Event) :
    w.run s (events.filter Event.isMessage) = w.run s events := by
  induction events generalizing s with
  | nil => rfl
  | cons e rest ih =>
    cases e with
    | message offset =>
      simp only [List.filter_cons, Event.isMessage, if_true, Worker.run]
      split_ifs
      · rfl
      · exact ih _
    | streamError reason =>
      simp only [List.filter_cons, Event.isMessage, Worker.run, Worker.step]
      by_cases hd : s.draining = true
      · simp [hd, run_draining w s _ hd]
      · simp [hd, ih s]

theorem run_last_offset (w : Worker) (events : List Event) :
    (w.run w.start events).lastProcessedOffset
      = ((w.run w.start events).handled.getLast?).getD w.initialOffset := by
  apply run_invariant w
    (fun s => s.lastProcessedOffset = (s.handled.getLast?).getD w.initialOffset)
  · intro s e _
    cases e with
    | message offset => simp [Worker.step]
    | streamError reason => simpa [Worker.step]
  · unfold Worker.start
    split_ifs <;> rfl

/-- C24. The worker publishes a single final status, and its offset is the
offset of the last message the worker delivered to the handler. A stream error
leaves the state of the worker as it is: it neither invokes the handler nor
changes the offset, and a run gives the same state and status as the run over
the messages alone. -/
theorem final_status_is_last_delivered (w : Worker) (events : List Event) :
    (w.consumePartition events).2 =
        [{ partition := w.partition
           lastProcessedOffset :=
            ((w.consumePartition events).1.handled.getLast?).getD w.initialOffset }]
    ∧ (∀ offset, (w.consumePartition events).1.handled.getLast? = some offset →
        (w.consumePartition events).2 = [{ partition := w.partition
                                           lastProcessedOffset := offset }])
    ∧ (∀ s reason, w.step s (.streamError reason) = s)
    ∧ w.consumePartition (events.filter Event.isMessage) = w.consumePartition events := by
  have h1 : (w.consumePartition events).2 =
      [{ partition := w.partition
         lastProcessedOffset :=
          ((w.consumePartition events).1.handled.getLast?).getD w.initialOffset }] := by
    simp only [Worker.consumePartition]
    rw [← run_last_offset]
  refine ⟨h1, fun offset hlast => ?_, fun s reason => rfl, ?_⟩
  · rw [h1, hlast]
    rfl
  · simp only [Worker.consumePartition, run_filter_messages]

/-- Witness of C24: the messages at offsets 1 and 2 of `TestConsumePartition`
with a stream error between them; the status is partition 0, offset 2. -/
theorem final_status_is_last_delivered_witness :
    (sampleWorker.consumePartition
      [.message 1, .streamError "broker", .message 2]).2
      = [{ partition := sampleWorker.partition, lastProcessedOffset := 2 }] :=
  (final_status_is_last_delivered sampleWorker
    [.message 1, .streamError "broker", .message 2]).2.1 2 (by decide)

/-- C25. When the lookup of the partitions of the topic yields no partition,
`ConsumeTopic` returns an error, does not initialize the barrier and launches
no worker. -/
theorem no_partitions_no_workers (client : LogClient) (topic : String)
    (offsets : Int → StartOffset) (h : client.partitions topic = []) :
    (ConsumeTopic client topic offsets).error = some .noPartitions
    ∧ (ConsumeTopic client topic offsets).barrier = none
    ∧ (ConsumeTopic client topic offsets).launched = [] := by
  simp [ConsumeTopic, h]

/-- Witness of C25: the topic without partitions of `TestConsumeTopic_noTopics`. -/
theorem no_partitions_no_workers_witness :
    (ConsumeTopic emptyTopicClient "test-topic" (fun _ => .oldest)).error
      = some .noPartitions
    ∧ (ConsumeTopic emptyTopicClient "test-topic" (fun _ => .oldest)).launched = [] :=
  ⟨(no_partitions_no_workers emptyTopicClient "test-topic" (fun _ => .oldest) rfl).1,
    (no_partitions_no_workers emptyTopicClient "test-topic" (fun _ => .oldest) rfl).2.2⟩

theorem signalInvariant_start (w : Worker) : SignalInvariant w w.start := by
  unfold SignalInvariant Worker.start
  split_ifs with h
  · exact ⟨fun _ => rfl, fun hne => absurd h hne⟩
  · exact ⟨fun heq => absurd heq h, fun _ => Or.inl ⟨rfl, by simp⟩⟩

theorem signalInvariant_step (w : Worker) (s : WorkerState) (e : Event)
    (h : SignalInvariant w s) : SignalInvariant w (w.step s e) := by
  cases e with
  | streamError reason => exact h
  | message offset =>
    obtain ⟨h1, h2⟩ := h
    constructor
    · intro ht
      have hs := h1 ht
      simp [Worker.step, hs]
    · intro ht
      rcases h2 ht with ⟨hnone, hlow⟩ | ⟨q, off0, hsig, hge, hlow, hpre⟩
      · by_cases hreach : w.targetOffset ≤ offset
        · right
          exact ⟨s.handled, offset, by simp [Worker.step, hnone, hreach], hreach, hlow,
            List.prefix_refl _⟩
        · left
          refine ⟨by simp [Worker.step, hnone, hreach], ?_⟩
          intro x hx
          simp only [Worker.step, List.mem_append, List.mem_singleton] at hx
          rcases hx with hx | rfl
          · exact hlow x hx
          · omega
      · right
        refine ⟨q, off0, by simp [Worker.step, hsig], hge, hlow, ?_⟩
        exact List.IsPrefix.trans hpre (List.prefix_append _ _)

/-- C26, as amended. A worker signals the catch-up barrier at most once, never
twice. A worker whose target offset is -1 signals at its start, when no message
has been delivered to the handler. Any other worker that has signalled did so
when it delivered the first message whose offset is at least its target offset,
not before; and a worker that has not signalled has delivered no such message. -/
theorem barrier_signalled_at_most_once (w : Worker) (events : List Event) :
    (w.consumePartition events).1.signals.length ≤ 1
    ∧ (w.targetOffset = -1 →
        w.start.signals = [[]] ∧ w.start.handled = []
        ∧ (w.consumePartition events).1.signals = [[]])
    ∧ (w.targetOffset ≠ -1 → ∀ p ∈ (w.consumePartition events).1.signals,
        ∃ q offset, p = q ++ [offset] ∧ w.targetOffset ≤ offset
          ∧ (∀ x ∈ q, x < w.targetOffset)
          ∧ p <+: (w.consumePartition events).1.handled)
    ∧ (w.targetOffset ≠ -1 → (w.consumePartition events).1.signals = [] →
        ∀ x ∈ (w.consumePartition events).1.handled, x < w.targetOffset) := by
  have hinv : SignalInvariant w (w.run w.start events) :=
    run_invariant w (SignalInvariant w) (signalInvariant_step w) _ events
      (signalInvariant_start w)
  obtain ⟨h1, h2⟩ := hinv
  simp only [Worker.consumePartition]
  refine ⟨?_, fun ht => ⟨?_, ?_, h1 ht⟩, fun ht p hp => ?_, fun ht hnone => ?_⟩
  · by_cases ht : w.targetOffset = -1
    · rw [h1 ht]
      simp
    · rcases h2 ht with ⟨hnone, _⟩ | ⟨q, off0, hsig, _⟩
      · rw [hnone]
        simp
      · rw [hsig]
        simp
  · simp [Worker.start, ht]
  · simp [Worker.start, ht]
  · rcases h2 ht with ⟨hnone, _⟩ | ⟨q, off0, hsig, hge, hlow, hpre⟩
    · rw [hnone] at hp
      exact absurd hp (List.not_mem_nil p)
    · rw [hsig] at hp
      have hpq : p = q ++ [off0] := by simpa using hp
      exact ⟨q, off0, hpq, hge, hlow, by rw [hpq]; exact hpre⟩
  · rcases h2 ht with ⟨_, hlow⟩ | ⟨q, off0, hsig, _⟩
    · exact hlow
    · rw [hsig] at hnone
      exact absurd hnone (by simp)

/-- Witness of C26 as amended: the worker of `TestConsumePartition`, with
target offset 1, signals once, when it has delivered the message at offset 1;
the worker of `TestConsumePartition_caughtUp` signals before any message. -/
theorem barrier_signalled_at_most_once_witness :
    (∀ p ∈ (sampleWorker.consumePartition [.message 1, .message 2]).1.signals,
      ∃ q offset, p = q ++ [offset] ∧ sampleWorker.targetOffset ≤ offset
        ∧ (∀ x ∈ q, x < sampleWorker.targetOffset)
        ∧ p <+: (sampleWorker.consumePartition [.message 1, .message 2]).1.handled)
    ∧ (sampleWorker.consumePartition [.message 1, .message 2]).1.signals = [[1]]
    ∧ (idleWorker.consumePartition [.streamError "broker"]).1.signals = [[]] :=
  ⟨(barrier_signalled_at_most_once sampleWorker [.message 1, .message 2]).2.2.1
      (by decide),
    by decide,
    ((barrier_signalled_at_most_once idleWorker [.streamError "broker"]).2.1 rfl).2.2⟩

/-- Counterexample to C26 as stated: a worker whose target offset is 5 and that
is shut down after the message at offset 1 has delivered that message and has
not signalled the barrier at all. -/
theorem worker_shut_down_early_never_signals :
    (lateWorker.consumePartition [.message 1]).1.handled = [1]
    ∧ (lateWorker.consumePartition [.message 1]).1.signals = []
    ∧ (lateWorker.consumePartition [.message 1]).1.signals.length ≠ 1 := by
  decide

end Consumer
